import Mathlib

/- Verification model of the pre-order saga workflow of this repository.
The definitions below are a shallow embedding of workflow.py (class
PreOrderWorkflow), models.py (OrderState, PreOrder, CompensationRecord) and
the query surface used by client.py. Timestamps are seconds as integers,
monetary amounts are integers, activity outcomes and signal observations are
supplied by an explicit environment, and the workflow run is a pure function
producing the final saga state, the returned dictionary (or the uncaught
exception message) and a trace of the events it performed. -/

namespace PreorderSaga

/- models.py: OrderState enumeration and its string values. -/

inductive OrderState where
  | pre_order_placed
  | payment_processing
  | awaiting_release
  | fulfillment_in_progress
  | awaiting_delivery
  | delivered
  | refunded
deriving DecidableEq, Repr

def OrderState.value : OrderState → String := fun st =>
  match st with
  | OrderState.pre_order_placed => "pre_order_placed"
  | OrderState.payment_processing => "payment_processing"
  | OrderState.awaiting_release => "awaiting_release"
  | OrderState.fulfillment_in_progress => "fulfillment_in_progress"
  | OrderState.awaiting_delivery => "awaiting_delivery"
  | OrderState.delivered => "delivered"
  | OrderState.refunded => "refunded"

/- models.py: PreOrder dataclass. release_date is a timestamp in seconds. -/

structure PreOrder where
  order_id : String
  customer_email : String
  product_name : String
  amount : Int
  payment_method_id : String
  release_date : Int
deriving DecidableEq, Repr

/- models.py: CompensationRecord dataclass. -/

structure CompensationRecord where
  action : String
  resource_id : String
deriving DecidableEq, Repr

/- workflow.py __init__: the mutable instance fields of PreOrderWorkflow. -/

structure SagaState where
  state : OrderState
  order : Option PreOrder
  compensation_log : List CompensationRecord
  charge_id : Option String
  reservation_id : Option String
  fulfillment_id : Option String
  cancel_requested : Bool
  start_fulfillment_requested : Bool
  item_picked_confirmed : Bool
  delivery_confirmed : Bool
deriving DecidableEq, Repr

def initSagaState : SagaState :=
  { state := OrderState.pre_order_placed
    order := none
    compensation_log := []
    charge_id := none
    reservation_id := none
    fulfillment_id := none
    cancel_requested := false
    start_fulfillment_requested := false
    item_picked_confirmed := false
    delivery_confirmed := false }

/- workflow.py signal handlers: each only sets its flag. -/

def start_fulfillment (s : SagaState) : SagaState :=
  { s with start_fulfillment_requested := true }

def cancel_order (s : SagaState) : SagaState :=
  { s with cancel_requested := true }

def item_picked (s : SagaState) : SagaState :=
  { s with item_picked_confirmed := true }

def confirm_delivery (s : SagaState) : SagaState :=
  { s with delivery_confirmed := true }

/- workflow.py query handlers (the only two defined with @workflow.query). -/

structure StatusView where
  order_id : Option String
  state : String
deriving DecidableEq, Repr

def get_status (s : SagaState) : StatusView :=
  { order_id := Option.map PreOrder.order_id s.order
    state := s.state.value }

def get_compensation_log (s : SagaState) : List (String × String) :=
  s.compensation_log.map (fun r => (r.action, r.resource_id))

/- The query names handled by the workflow class (workflow.py) and the query
names invoked by the demo client (client.py). -/

def workflow_query_handlers : List String :=
  ["get_status", "get_compensation_log"]

def client_query_names : List String :=
  ["get_status", "get_compensation_log", "get_deadline_info"]

/- workflow.py retry policies, attempts and backoff seconds as in the source. -/

structure RetryPolicy where
  maximum_attempts : Nat
  initial_interval : Int
  maximum_interval : Option Int
deriving DecidableEq, Repr

def standard_retry_policy : RetryPolicy :=
  { maximum_attempts := 3, initial_interval := 2, maximum_interval := none }

def compensation_retry_policy : RetryPolicy :=
  { maximum_attempts := 100, initial_interval := 1, maximum_interval := some 30 }

/- The environment: the final outcome of each activity invocation (after the
runtime has applied the invocation's retry policy) and the observations the
durable waits make of the external signals. -/

inductive ActResult where
  | ok (resource : String)
  | err (reason : String)
deriving DecidableEq, Repr

/- Observation made by the release-phase wait_condition: it either became
satisfied before the deadline, with the given values of the two watched
flags, or the timer elapsed with the predicate still false. -/

inductive ReleaseObs where
  | satisfied (cancel : Bool) (start : Bool)
  | timedOut
deriving DecidableEq, Repr

structure Env where
  charge : ActResult
  notify_confirm : ActResult
  reserve : ActResult
  now3 : Int
  release_obs : ReleaseObs
  create_fulfillment_r : ActResult
  request_pickup_r : ActResult
  notify_prepared : ActResult
  pick_timeouts : Nat
  reminder_results : Nat → ActResult
  late_cancel_pick : Bool
  notify_picked : ActResult
  late_cancel_delivery : Bool
  notify_completed : ActResult
  comp_results : Nat → ActResult
  notify_refund : ActResult

/- Events recorded by the model: state transitions, compensation-log appends,
activity invocations (with their arguments and outcome) and wait outcomes.
Each trace entry also carries a snapshot of the saga state: for activity and
wait events this is the state at the suspension point, for setState and
record events the state right after the mutation. -/

inductive Event where
  | setState (st : OrderState)
  | record (action : String) (resource_id : String)
  | actOk (name : String) (args : List String) (resource : String)
  | actErr (name : String) (args : List String) (reason : String)
  | waitSat (name : String)
  | waitTimeout (name : String)
deriving DecidableEq, Repr

structure Entry where
  ev : Event
  saga : SagaState
deriving DecidableEq, Repr

structure PhaseOut where
  saga : SagaState
  entries : List Entry
  result : Except String Unit
deriving Repr

/- workflow.execute_activity: one invocation, outcome given by the env. -/

def invoke (s : SagaState) (name : String) (args : List String) (r : ActResult) :
    Entry × Except String String :=
  match r with
  | ActResult.ok res => ({ ev := Event.actOk name args res, saga := s }, Except.ok res)
  | ActResult.err m => ({ ev := Event.actErr name args m, saga := s }, Except.error m)

/- PreOrderWorkflow._notify: send_notification with the customer email;
there is no exception handler around it in the source. -/

def notify (o : PreOrder) (s : SagaState) (r : ActResult) (subject message : String) :
    Entry × Except String Unit :=
  match invoke s ("send_notification") [o.customer_email, subject, message] r with
  | (e, Except.ok _) => (e, Except.ok ())
  | (e, Except.error m) => (e, Except.error m)

/- PreOrderWorkflow._process_payment. -/

def process_payment (env : Env) (o : PreOrder) (s0 : SagaState) : PhaseOut :=
  let s1 : SagaState := { s0 with state := OrderState.payment_processing }
  let e1 : Entry := { ev := Event.setState OrderState.payment_processing, saga := s1 }
  match invoke s1 ("charge_payment") [o.payment_method_id, toString o.amount, o.order_id]
      env.charge with
  | (e2, Except.error m) => { saga := s1, entries := [e1, e2], result := Except.error m }
  | (e2, Except.ok cid) =>
    let s2 : SagaState := { s1 with charge_id := some cid }
    let s3 : SagaState :=
      { s2 with compensation_log :=
          s2.compensation_log ++ [{ action := "payment_charged", resource_id := cid }] }
    let e3 : Entry := { ev := Event.record ("payment_charged") cid, saga := s3 }
    match notify o s3 env.notify_confirm ("Pre-Order Confirmed!")
        ("Payment of $" ++ toString o.amount ++ " received for " ++ o.product_name ++ ".") with
    | (e4, Except.ok _) =>
      { saga := s3, entries := [e1, e2, e3, e4], result := Except.ok () }
    | (e4, Except.error m) =>
      { saga := s3, entries := [e1, e2, e3, e4], result := Except.error m }

/- PreOrderWorkflow._reserve_inventory. -/

def reserve_inventory (env : Env) (o : PreOrder) (s0 : SagaState) : PhaseOut :=
  match invoke s0 ("reserve_inventory") [o.order_id, o.product_name] env.reserve with
  | (e1, Except.error m) => { saga := s0, entries := [e1], result := Except.error m }
  | (e1, Except.ok rid) =>
    let s1 : SagaState := { s0 with reservation_id := some rid }
    let s2 : SagaState :=
      { s1 with compensation_log :=
          s1.compensation_log ++ [{ action := "inventory_reserved", resource_id := rid }] }
    let e2 : Entry := { ev := Event.record ("inventory_reserved") rid, saga := s2 }
    { saga := s2, entries := [e1, e2], result := Except.ok () }

/- PreOrderWorkflow._await_release_with_timeout. The deadline is the release
timestamp plus one week; the wait observes the two flags or times out, and
the source checks cancel_requested before the timed_out flag. -/

def one_week_seconds : Int := 7 * 24 * 60 * 60

def await_release_with_timeout (env : Env) (o : PreOrder) (s0 : SagaState) : PhaseOut :=
  let s1 : SagaState := { s0 with state := OrderState.awaiting_release }
  let e1 : Entry := { ev := Event.setState OrderState.awaiting_release, saga := s1 }
  let deadline : Int := o.release_date + one_week_seconds
  if deadline - env.now3 ≤ 0 then
    { saga := s1, entries := [e1]
      result := Except.error ("Release date + 1 week has passed - auto-refund triggered") }
  else
    match env.release_obs with
    | ReleaseObs.timedOut =>
      let e2 : Entry := { ev := Event.waitTimeout ("release"), saga := s1 }
      if s1.cancel_requested then
        { saga := s1, entries := [e1, e2]
          result := Except.error ("Order cancelled by customer") }
      else
        { saga := s1, entries := [e1, e2]
          result := Except.error
            ("Fulfillment not initiated within deadline - auto-refund triggered") }
    | ReleaseObs.satisfied c st =>
      let s2 : SagaState :=
        { s1 with cancel_requested := s1.cancel_requested || c
                  start_fulfillment_requested := s1.start_fulfillment_requested || st }
      let e2 : Entry := { ev := Event.waitSat ("release"), saga := s2 }
      if s2.cancel_requested then
        { saga := s2, entries := [e1, e2]
          result := Except.error ("Order cancelled by customer") }
      else
        { saga := s2, entries := [e1, e2], result := Except.ok () }

/- PreOrderWorkflow._await_item_picked: loop until the item_picked signal,
sending a reminder notification on each timeout; the reminder notification is
awaited directly, so its failure propagates. Fuel is the number of timeouts
the environment produces before the signal is observed; k is the reminder
counter. -/

def await_item_picked (env : Env) (o : PreOrder) : Nat → Nat → SagaState → PhaseOut
  | 0, _, s =>
    let s1 : SagaState :=
      { s with item_picked_confirmed := true
               cancel_requested := s.cancel_requested || env.late_cancel_pick }
    { saga := s1, entries := [{ ev := Event.waitSat ("item_picked"), saga := s1 }]
      result := Except.ok () }
  | Nat.succ n, k, s =>
    let e1 : Entry := { ev := Event.waitTimeout ("item_picked"), saga := s }
    match invoke s ("send_notification")
        ["partner@example.com", "Pick Up Reminder #" ++ toString (k + 1),
         "Order " ++ o.order_id ++ " is waiting to be picked up!"]
        (env.reminder_results k) with
    | (e2, Except.error m) =>
      { saga := s, entries := [e1, e2], result := Except.error m }
    | (e2, Except.ok _) =>
      let rest := await_item_picked env o n (k + 1) s
      { saga := rest.saga, entries := e1 :: e2 :: rest.entries, result := rest.result }

/- PreOrderWorkflow._process_fulfillment. -/

def process_fulfillment (env : Env) (o : PreOrder) (s0 : SagaState) : PhaseOut :=
  let s1 : SagaState := { s0 with state := OrderState.fulfillment_in_progress }
  let e1 : Entry := { ev := Event.setState OrderState.fulfillment_in_progress, saga := s1 }
  match invoke s1 ("create_fulfillment") [o.order_id] env.create_fulfillment_r with
  | (e2, Except.error m) => { saga := s1, entries := [e1, e2], result := Except.error m }
  | (e2, Except.ok fid) =>
    let s2 : SagaState := { s1 with fulfillment_id := some fid }
    let s3 : SagaState :=
      { s2 with compensation_log :=
          s2.compensation_log ++ [{ action := "fulfillment_created", resource_id := fid }] }
    let e3 : Entry := { ev := Event.record ("fulfillment_created") fid, saga := s3 }
    match invoke s3 ("request_pickup") [fid] env.request_pickup_r with
    | (e4, Except.error m) =>
      { saga := s3, entries := [e1, e2, e3, e4], result := Except.error m }
    | (e4, Except.ok _) =>
      match notify o s3 env.notify_prepared ("Order Being Prepared")
          ("Your " ++ o.product_name ++ " is ready for pickup by delivery service.") with
      | (e5, Except.error m) =>
        { saga := s3, entries := [e1, e2, e3, e4, e5], result := Except.error m }
      | (e5, Except.ok _) =>
        let w := await_item_picked env o env.pick_timeouts 0 s3
        { saga := w.saga, entries := [e1, e2, e3, e4, e5] ++ w.entries, result := w.result }

/- PreOrderWorkflow._await_delivery_confirmation. -/

def await_delivery_confirmation (env : Env) (o : PreOrder) (s0 : SagaState) : PhaseOut :=
  let s1 : SagaState := { s0 with state := OrderState.awaiting_delivery }
  let e1 : Entry := { ev := Event.setState OrderState.awaiting_delivery, saga := s1 }
  match notify o s1 env.notify_picked ("Item Picked Up")
      ("Your " ++ o.product_name ++ " has been picked up and is on its way!") with
  | (e2, Except.error m) => { saga := s1, entries := [e1, e2], result := Except.error m }
  | (e2, Except.ok _) =>
    let s2 : SagaState :=
      { s1 with delivery_confirmed := true
                cancel_requested := s1.cancel_requested || env.late_cancel_delivery }
    { saga := s2
      entries := [e1, e2, { ev := Event.waitSat ("delivery"), saga := s2 }]
      result := Except.ok () }

/- PreOrderWorkflow._compensate_action: the fixed action-to-activity table;
a record whose action has no mapped compensation is skipped. -/

def compensation_map : String → Option String := fun a =>
  match a with
  | "payment_charged" => some ("refund_payment")
  | "inventory_reserved" => some ("release_inventory")
  | "fulfillment_created" => some ("cancel_fulfillment")
  | _ => none

def compensate_action (env : Env) (k : Nat) (r : CompensationRecord) (s : SagaState) :
    List Entry × Except String Unit :=
  match compensation_map r.action with
  | none => ([], Except.ok ())
  | some nm =>
    match invoke s nm [r.resource_id] (env.comp_results k) with
    | (e, Except.ok _) => ([e], Except.ok ())
    | (e, Except.error m) => ([e], Except.error m)

def compensate_loop (env : Env) : Nat → SagaState → List CompensationRecord →
    List Entry × Except String Unit
  | _, _, [] => ([], Except.ok ())
  | k, s, r :: rest =>
    match compensate_action env k r s with
    | (es, Except.error m) => (es, Except.error m)
    | (es, Except.ok _) =>
      let t := compensate_loop env (k + 1) s rest
      (es ++ t.1, t.2)

/- PreOrderWorkflow._compensate: set the REFUNDED state first, then walk the
compensation log in reverse insertion order, then send the refund
notification. -/

def compensate (env : Env) (o : PreOrder) (s0 : SagaState) : PhaseOut :=
  let s1 : SagaState := { s0 with state := OrderState.refunded }
  let e1 : Entry := { ev := Event.setState OrderState.refunded, saga := s1 }
  let t := compensate_loop env 0 s1 s1.compensation_log.reverse
  match t.2 with
  | Except.error m => { saga := s1, entries := e1 :: t.1, result := Except.error m }
  | Except.ok _ =>
    match notify o s1 env.notify_refund ("Order Refunded")
        ("Your order has been cancelled and $" ++ toString o.amount ++
          " will be refunded.") with
    | (e2, Except.ok _) =>
      { saga := s1, entries := (e1 :: t.1) ++ [e2], result := Except.ok () }
    | (e2, Except.error m) =>
      { saga := s1, entries := (e1 :: t.1) ++ [e2], result := Except.error m }

/- The dictionary returned by PreOrderWorkflow.run: a status, the order id
and (for the failure outcomes) a reason string. -/

structure RunResult where
  status : String
  order_id : String
  reason : Option String
deriving DecidableEq, Repr

structure RunOutput where
  result : Except String RunResult
  trace : List Entry
  final : SagaState
deriving Repr

/- PreOrderWorkflow.run: bind the order, then the five phases with the two
exception handlers of the source (payment, and inventory/release routed
through the compensator); failures in the fulfillment and delivery phases
are uncaught and fail the workflow. -/

def run (env : Env) (o : PreOrder) : RunOutput :=
  let s0 : SagaState := { initSagaState with order := some o }
  let p1 := process_payment env o s0
  match p1.result with
  | Except.error m =>
    { result := Except.ok { status := "payment_failed", order_id := o.order_id, reason := some m }
      trace := p1.entries
      final := p1.saga }
  | Except.ok _ =>
    let p2 := reserve_inventory env o p1.saga
    match p2.result with
    | Except.error m =>
      let c := compensate env o p2.saga
      { result :=
          match c.result with
          | Except.ok _ =>
            Except.ok { status := "refunded", order_id := o.order_id, reason := some m }
          | Except.error m2 => Except.error m2
        trace := p1.entries ++ (p2.entries ++ c.entries)
        final := c.saga }
    | Except.ok _ =>
      let p3 := await_release_with_timeout env o p2.saga
      match p3.result with
      | Except.error m =>
        let c := compensate env o p3.saga
        { result :=
            match c.result with
            | Except.ok _ =>
              Except.ok { status := "refunded", order_id := o.order_id, reason := some m }
            | Except.error m2 => Except.error m2
          trace := p1.entries ++ (p2.entries ++ (p3.entries ++ c.entries))
          final := c.saga }
      | Except.ok _ =>
        let p4 := process_fulfillment env o p3.saga
        match p4.result with
        | Except.error m =>
          { result := Except.error m
            trace := p1.entries ++ (p2.entries ++ (p3.entries ++ p4.entries))
            final := p4.saga }
        | Except.ok _ =>
          let p5 := await_delivery_confirmation env o p4.saga
          match p5.result with
          | Except.error m =>
            { result := Except.error m
              trace := p1.entries ++ (p2.entries ++ (p3.entries ++ (p4.entries ++ p5.entries)))
              final := p5.saga }
          | Except.ok _ =>
            let s6 : SagaState := { p5.saga with state := OrderState.delivered }
            let e6 : Entry := { ev := Event.setState OrderState.delivered, saga := s6 }
            match notify o s6 env.notify_completed ("Order Completed!")
                ("Your " ++ o.product_name ++ " has been delivered!") with
            | (e7, Except.error m) =>
              { result := Except.error m
                trace := p1.entries ++ (p2.entries ++ (p3.entries ++ (p4.entries ++
                  (p5.entries ++ [e6, e7]))))
                final := s6 }
            | (e7, Except.ok _) =>
              { result :=
                  Except.ok { status := "completed", order_id := o.order_id, reason := none }
                trace := p1.entries ++ (p2.entries ++ (p3.entries ++ (p4.entries ++
                  (p5.entries ++ [e6, e7]))))
                final := s6 }

/- Derived views of a trace used by the theorems. -/

def events (t : List Entry) : List Event := t.map Entry.ev

def forwardActionOf : String → Option String := fun n =>
  match n with
  | "charge_payment" => some ("payment_charged")
  | "reserve_inventory" => some ("inventory_reserved")
  | "create_fulfillment" => some ("fulfillment_created")
  | _ => none

def fwdOf : Event → Option (String × String) := fun e =>
  match e with
  | Event.actOk n _ r => (forwardActionOf n).map (fun a => (a, r))
  | _ => none

def forwardOk (evs : List Event) : List (String × String) := evs.filterMap fwdOf

def suspEv : Event → Bool := fun e =>
  match e with
  | Event.actOk _ _ _ => true
  | Event.actErr _ _ _ => true
  | Event.waitSat _ => true
  | Event.waitTimeout _ => true
  | _ => false

def comp_activity_names : List String :=
  ["refund_payment", "release_inventory", "cancel_fulfillment"]

def callOf : Event → Option (String × List String) := fun e =>
  match e with
  | Event.actOk n a _ => some (n, a)
  | Event.actErr n a _ => some (n, a)
  | _ => none

def isCompCallEv (e : Event) : Bool :=
  match callOf e with
  | some (n, _) => comp_activity_names.contains n
  | none => false

def compCallOf (e : Event) : Option (String × List String) :=
  match callOf e with
  | some (n, a) => if comp_activity_names.contains n then some (n, a) else none
  | none => none

def compCalls (t : List Entry) : List (String × List String) :=
  (events t).filterMap compCallOf

/- The three statuses appearing in the dictionaries returned by run. -/

def run_statuses : List String := ["payment_failed", "refunded", "completed"]

/- Small evaluation lemmas on the fixed string tables. -/

@[simp] theorem forwardActionOf_charge :
    forwardActionOf ("charge_payment") = some ("payment_charged") := rfl

@[simp] theorem forwardActionOf_reserve :
    forwardActionOf ("reserve_inventory") = some ("inventory_reserved") := rfl

@[simp] theorem forwardActionOf_create :
    forwardActionOf ("create_fulfillment") = some ("fulfillment_created") := rfl

@[simp] theorem forwardActionOf_send :
    forwardActionOf ("send_notification") = none := rfl

@[simp] theorem forwardActionOf_pickup :
    forwardActionOf ("request_pickup") = none := rfl

@[simp] theorem forwardActionOf_refund :
    forwardActionOf ("refund_payment") = none := rfl

@[simp] theorem forwardActionOf_release :
    forwardActionOf ("release_inventory") = none := rfl

@[simp] theorem forwardActionOf_cancelf :
    forwardActionOf ("cancel_fulfillment") = none := rfl

@[simp] theorem contains_charge :
    comp_activity_names.contains ("charge_payment") = false := rfl

@[simp] theorem contains_reserve :
    comp_activity_names.contains ("reserve_inventory") = false := rfl

@[simp] theorem contains_create :
    comp_activity_names.contains ("create_fulfillment") = false := rfl

@[simp] theorem contains_send :
    comp_activity_names.contains ("send_notification") = false := rfl

@[simp] theorem contains_pickup :
    comp_activity_names.contains ("request_pickup") = false := rfl

@[simp] theorem contains_refund :
    comp_activity_names.contains ("refund_payment") = true := rfl

@[simp] theorem contains_release :
    comp_activity_names.contains ("release_inventory") = true := rfl

@[simp] theorem contains_cancelf :
    comp_activity_names.contains ("cancel_fulfillment") = true := rfl

@[simp] theorem not_mem_comp_charge : ("charge_payment" : String) ∉ comp_activity_names := by
  decide

@[simp] theorem not_mem_comp_reserve :
    ("reserve_inventory" : String) ∉ comp_activity_names := by decide

@[simp] theorem not_mem_comp_create :
    ("create_fulfillment" : String) ∉ comp_activity_names := by decide

@[simp] theorem not_mem_comp_send :
    ("send_notification" : String) ∉ comp_activity_names := by decide

@[simp] theorem not_mem_comp_pickup :
    ("request_pickup" : String) ∉ comp_activity_names := by decide

@[simp] theorem mem_comp_refund : ("refund_payment" : String) ∈ comp_activity_names := by
  decide

@[simp] theorem mem_comp_release :
    ("release_inventory" : String) ∈ comp_activity_names := by decide

@[simp] theorem mem_comp_cancelf :
    ("cancel_fulfillment" : String) ∈ comp_activity_names := by decide

@[simp] theorem fwdOf_setState (st : OrderState) : fwdOf (Event.setState st) = none := rfl

@[simp] theorem fwdOf_record (a r : String) : fwdOf (Event.record a r) = none := rfl

@[simp] theorem fwdOf_waitSat (n : String) : fwdOf (Event.waitSat n) = none := rfl

@[simp] theorem fwdOf_waitTimeout (n : String) : fwdOf (Event.waitTimeout n) = none := rfl

@[simp] theorem fwdOf_actErr (n : String) (a : List String) (m : String) :
    fwdOf (Event.actErr n a m) = none := rfl

theorem fwdOf_actOk (n : String) (a : List String) (r : String) :
    fwdOf (Event.actOk n a r) = (forwardActionOf n).map (fun x => (x, r)) := rfl

@[simp] theorem fwdOf_actOk_charge (a : List String) (r : String) :
    fwdOf (Event.actOk ("charge_payment") a r) = some (("payment_charged"), r) := rfl

@[simp] theorem fwdOf_actOk_reserve (a : List String) (r : String) :
    fwdOf (Event.actOk ("reserve_inventory") a r) = some (("inventory_reserved"), r) := rfl

@[simp] theorem fwdOf_actOk_create (a : List String) (r : String) :
    fwdOf (Event.actOk ("create_fulfillment") a r) = some (("fulfillment_created"), r) := rfl

@[simp] theorem fwdOf_actOk_send (a : List String) (r : String) :
    fwdOf (Event.actOk ("send_notification") a r) = none := rfl

@[simp] theorem fwdOf_actOk_pickup (a : List String) (r : String) :
    fwdOf (Event.actOk ("request_pickup") a r) = none := rfl

@[simp] theorem isCompCallEv_setState (st : OrderState) :
    isCompCallEv (Event.setState st) = false := rfl

@[simp] theorem isCompCallEv_record (a r : String) :
    isCompCallEv (Event.record a r) = false := rfl

@[simp] theorem isCompCallEv_waitSat (n : String) :
    isCompCallEv (Event.waitSat n) = false := rfl

@[simp] theorem isCompCallEv_waitTimeout (n : String) :
    isCompCallEv (Event.waitTimeout n) = false := rfl

@[simp] theorem isCompCallEv_actOk (n : String) (a : List String) (r : String) :
    isCompCallEv (Event.actOk n a r) = comp_activity_names.contains n := rfl

@[simp] theorem isCompCallEv_actErr (n : String) (a : List String) (m : String) :
    isCompCallEv (Event.actErr n a m) = comp_activity_names.contains n := rfl

theorem compensation_map_mem {a nm : String} (h : compensation_map a = some nm) :
    comp_activity_names.contains nm = true ∧ forwardActionOf nm = none := by
  unfold compensation_map at h
  split at h
  · cases Option.some.inj h; exact ⟨rfl, rfl⟩
  · cases Option.some.inj h; exact ⟨rfl, rfl⟩
  · cases Option.some.inj h; exact ⟨rfl, rfl⟩
  · cases h

/- events and forwardOk distribute over list operations. -/

@[simp] theorem events_nil : events [] = [] := rfl

@[simp] theorem events_cons (e : Entry) (t : List Entry) :
    events (e :: t) = e.ev :: events t := rfl

@[simp] theorem events_append (t₁ t₂ : List Entry) :
    events (t₁ ++ t₂) = events t₁ ++ events t₂ := List.map_append Entry.ev t₁ t₂

@[simp] theorem forwardOk_nil : forwardOk [] = [] := rfl

@[simp] theorem forwardOk_append (l₁ l₂ : List Event) :
    forwardOk (l₁ ++ l₂) = forwardOk l₁ ++ forwardOk l₂ := List.filterMap_append l₁ l₂ fwdOf

theorem forwardOk_cons (e : Event) (l : List Event) :
    forwardOk (e :: l) =
      (match fwdOf e with
       | some p => p :: forwardOk l
       | none => forwardOk l) := by
  unfold forwardOk
  rw [List.filterMap_cons]
  cases fwdOf e <;> rfl

@[simp] theorem forwardOk_cons_none {e : Event} (h : fwdOf e = none) (l : List Event) :
    forwardOk (e :: l) = forwardOk l := by
  rw [forwardOk_cons, h]

@[simp] theorem forwardOk_cons_some {e : Event} {p : String × String} (h : fwdOf e = some p)
    (l : List Event) : forwardOk (e :: l) = p :: forwardOk l := by
  rw [forwardOk_cons, h]

@[simp] theorem get_compensation_log_mk (st : OrderState) (o : Option PreOrder)
    (cl : List CompensationRecord) (ci ri fi : Option String) (a b c d : Bool) :
    get_compensation_log
      { state := st, order := o, compensation_log := cl, charge_id := ci,
        reservation_id := ri, fulfillment_id := fi, cancel_requested := a,
        start_fulfillment_requested := b, item_picked_confirmed := c,
        delivery_confirmed := d } = cl.map (fun r => (r.action, r.resource_id)) := rfl

theorem get_compensation_log_eq (s : SagaState) :
    get_compensation_log s = s.compensation_log.map (fun r => (r.action, r.resource_id)) := rfl

theorem get_compensation_log_congr {s s' : SagaState}
    (h : s.compensation_log = s'.compensation_log) :
    get_compensation_log s = get_compensation_log s' := by
  rw [get_compensation_log_eq, get_compensation_log_eq, h]

theorem get_compensation_log_append (s : SagaState) (l : List CompensationRecord)
    {s' : SagaState} (h : s'.compensation_log = s.compensation_log ++ l) :
    get_compensation_log s' =
      get_compensation_log s ++ l.map (fun r => (r.action, r.resource_id)) := by
  rw [get_compensation_log_eq, get_compensation_log_eq, h, List.map_append]

@[simp] theorem suspEv_setState (st : OrderState) : suspEv (Event.setState st) = false := rfl

@[simp] theorem suspEv_record (a r : String) : suspEv (Event.record a r) = false := rfl

@[simp] theorem suspEv_actOk (n : String) (a : List String) (r : String) :
    suspEv (Event.actOk n a r) = true := rfl

@[simp] theorem suspEv_actErr (n : String) (a : List String) (m : String) :
    suspEv (Event.actErr n a m) = true := rfl

@[simp] theorem suspEv_waitSat (n : String) : suspEv (Event.waitSat n) = true := rfl

@[simp] theorem suspEv_waitTimeout (n : String) : suspEv (Event.waitTimeout n) = true := rfl

/- Trace segments that preserve the compensation-log invariant: every
suspension-point snapshot in the segment sees exactly the base log extended
by the successfully completed forward activities of the segment so far, and
the segment's final state sees all of them. -/

def GoodSegL (base : List (String × String)) (es : List Entry) (sF : SagaState) : Prop :=
  (∀ i e, es[i]? = some e → suspEv e.ev = true →
    get_compensation_log e.saga = base ++ forwardOk (events (es.take i)))
  ∧ get_compensation_log sF = base ++ forwardOk (events es)

def GoodSeg (s0 : SagaState) (es : List Entry) (sF : SagaState) : Prop :=
  GoodSegL (get_compensation_log s0) es sF

theorem GoodSegL_nil {base : List (String × String)} {sF : SagaState}
    (h : get_compensation_log sF = base) : GoodSegL base [] sF := by
  constructor
  · intro i e hi
    simp at hi
  · simpa using h

theorem GoodSegL_cons_nonfwd {base : List (String × String)} {es : List Entry}
    {sF : SagaState} {e : Entry} (hfwd : fwdOf e.ev = none)
    (hlog : suspEv e.ev = true → get_compensation_log e.saga = base)
    (h : GoodSegL base es sF) : GoodSegL base (e :: es) sF := by
  obtain ⟨hp, hf⟩ := h
  constructor
  · intro i e' hi hs
    cases i with
    | zero =>
      rw [List.getElem?_cons_zero] at hi
      cases Option.some.inj hi
      rw [hlog hs]
      simp
    | succ n =>
      rw [List.getElem?_cons_succ] at hi
      rw [hp n e' hi hs, List.take_succ_cons, events_cons, forwardOk_cons_none hfwd]
  · rw [hf, events_cons, forwardOk_cons_none hfwd]

theorem GoodSegL_cons_fwd {base : List (String × String)} {es : List Entry}
    {sF : SagaState} {e : Entry} {p : String × String} (hfwd : fwdOf e.ev = some p)
    (hlog : suspEv e.ev = true → get_compensation_log e.saga = base)
    (h : GoodSegL (base ++ [p]) es sF) : GoodSegL base (e :: es) sF := by
  obtain ⟨hp, hf⟩ := h
  constructor
  · intro i e' hi hs
    cases i with
    | zero =>
      rw [List.getElem?_cons_zero] at hi
      cases Option.some.inj hi
      rw [hlog hs]
      simp
    | succ n =>
      rw [List.getElem?_cons_succ] at hi
      rw [hp n e' hi hs, List.take_succ_cons, events_cons, forwardOk_cons_some hfwd,
        List.append_assoc, List.singleton_append]
  · rw [hf, events_cons, forwardOk_cons_some hfwd, List.append_assoc, List.singleton_append]

/- A segment that records nothing and performs no forward activity. -/

def FlatSeg (s0 : SagaState) (es : List Entry) (sF : SagaState) : Prop :=
  (∀ e ∈ es, e.saga.compensation_log = s0.compensation_log ∧ fwdOf e.ev = none)
  ∧ sF.compensation_log = s0.compensation_log

theorem forwardOk_eq_nil_of_all_none {es : List Entry}
    (h : ∀ e ∈ es, fwdOf e.ev = none) (l : List Entry) (hsub : l ⊆ es) :
    forwardOk (events l) = [] := by
  refine List.filterMap_eq_nil_iff.mpr ?_
  intro ev hev
  rcases List.mem_map.mp hev with ⟨e, he, rfl⟩
  exact (h e (hsub he))

theorem FlatSeg.goodSeg {s0 : SagaState} {es : List Entry} {sF : SagaState}
    (h : FlatSeg s0 es sF) : GoodSeg s0 es sF := by
  obtain ⟨hp, hf⟩ := h
  constructor
  · intro i e hi _
    have he : e ∈ es := List.getElem?_mem hi
    rw [get_compensation_log_congr (hp e he).1,
      forwardOk_eq_nil_of_all_none (fun e he => (hp e he).2) (es.take i) (List.take_subset i es),
      List.append_nil]
  · rw [get_compensation_log_congr hf,
      forwardOk_eq_nil_of_all_none (fun e he => (hp e he).2) es (fun _ h => h),
      List.append_nil]

theorem GoodSeg_append {s0 s1 s2 : SagaState} {es1 es2 : List Entry}
    (h1 : GoodSeg s0 es1 s1) (h2 : GoodSeg s1 es2 s2) : GoodSeg s0 (es1 ++ es2) s2 := by
  obtain ⟨h1p, h1f⟩ := h1
  obtain ⟨h2p, h2f⟩ := h2
  constructor
  · intro i e hi hs
    by_cases hlt : i < es1.length
    · rw [List.getElem?_append_left hlt] at hi
      rw [h1p i e hi hs, List.take_append_eq_append_take,
        Nat.sub_eq_zero_of_le (Nat.le_of_lt hlt), List.take_zero, List.append_nil]
    · have hle : es1.length ≤ i := Nat.le_of_not_lt hlt
      rw [List.getElem?_append_right hle] at hi
      rw [h2p (i - es1.length) e hi hs, h1f, List.take_append_eq_append_take,
        List.take_of_length_le hle, events_append, forwardOk_append, List.append_assoc]
  · rw [h2f, h1f, events_append, forwardOk_append, List.append_assoc]

theorem GoodSeg_nil (s : SagaState) : GoodSeg s [] s := by
  constructor
  · intro i e hi
    simp at hi
  · simp [events]

/- Membership helpers for event lists. -/

theorem not_mem_events {x : Event} {t : List Entry} (h : ∀ e ∈ t, e.ev ≠ x) :
    x ∉ events t := by
  intro hx
  rcases List.mem_map.mp hx with ⟨e, he, hev⟩
  exact h e he hev

theorem events_forall {P : Event → Prop} {t : List Entry} (h : ∀ e ∈ t, P e.ev) :
    ∀ ev ∈ events t, P ev := by
  intro ev hev
  rcases List.mem_map.mp hev with ⟨e, he, rfl⟩
  exact h e he

/- Phase 1 lemmas. -/

theorem process_payment_good (env : Env) (o : PreOrder) (s0 : SagaState) :
    GoodSeg s0 (process_payment env o s0).entries (process_payment env o s0).saga := by
  unfold GoodSeg
  cases hc : env.charge with
  | err m =>
    simp only [process_payment, invoke, hc]
    refine GoodSegL_cons_nonfwd rfl (by simp) ?_
    refine GoodSegL_cons_nonfwd rfl (fun _ => rfl) ?_
    exact GoodSegL_nil rfl
  | ok cid =>
    cases hn : env.notify_confirm with
    | ok v =>
      simp only [process_payment, invoke, notify, hc, hn]
      refine GoodSegL_cons_nonfwd rfl (by simp) ?_
      refine GoodSegL_cons_fwd rfl (fun _ => rfl) ?_
      refine GoodSegL_cons_nonfwd rfl (by simp) ?_
      refine GoodSegL_cons_nonfwd rfl
        (fun _ => by simp [get_compensation_log_eq, List.map_append]) ?_
      exact GoodSegL_nil (by simp [get_compensation_log_eq, List.map_append])
    | err m2 =>
      simp only [process_payment, invoke, notify, hc, hn]
      refine GoodSegL_cons_nonfwd rfl (by simp) ?_
      refine GoodSegL_cons_fwd rfl (fun _ => rfl) ?_
      refine GoodSegL_cons_nonfwd rfl (by simp) ?_
      refine GoodSegL_cons_nonfwd rfl
        (fun _ => by simp [get_compensation_log_eq, List.map_append]) ?_
      exact GoodSegL_nil (by simp [get_compensation_log_eq, List.map_append])

theorem process_payment_props (env : Env) (o : PreOrder) (s0 : SagaState) :
    (∀ e ∈ (process_payment env o s0).entries,
      isCompCallEv e.ev = false ∧ e.ev ≠ Event.setState OrderState.refunded ∧
      e.ev ≠ Event.setState OrderState.fulfillment_in_progress ∧ e.saga.order = s0.order)
    ∧ (process_payment env o s0).saga.order = s0.order := by
  cases hc : env.charge with
  | err m => simp [process_payment, invoke, hc]
  | ok cid =>
    cases hn : env.notify_confirm with
    | ok v => simp [process_payment, invoke, notify, hc, hn]
    | err m2 => simp [process_payment, invoke, notify, hc, hn]

/- Phase 2 lemmas. -/

theorem reserve_inventory_good (env : Env) (o : PreOrder) (s0 : SagaState) :
    GoodSeg s0 (reserve_inventory env o s0).entries (reserve_inventory env o s0).saga := by
  unfold GoodSeg
  cases hr : env.reserve with
  | err m =>
    simp only [reserve_inventory, invoke, hr]
    refine GoodSegL_cons_nonfwd rfl (fun _ => rfl) ?_
    exact GoodSegL_nil rfl
  | ok rid =>
    simp only [reserve_inventory, invoke, hr]
    refine GoodSegL_cons_fwd rfl (fun _ => rfl) ?_
    refine GoodSegL_cons_nonfwd rfl (by simp) ?_
    exact GoodSegL_nil (by simp [get_compensation_log_eq, List.map_append])

theorem reserve_inventory_props (env : Env) (o : PreOrder) (s0 : SagaState) :
    (∀ e ∈ (reserve_inventory env o s0).entries,
      isCompCallEv e.ev = false ∧ e.ev ≠ Event.setState OrderState.refunded ∧
      e.ev ≠ Event.setState OrderState.fulfillment_in_progress ∧ e.saga.order = s0.order)
    ∧ (reserve_inventory env o s0).saga.order = s0.order := by
  cases hr : env.reserve with
  | err m => simp [reserve_inventory, invoke, hr]
  | ok rid => simp [reserve_inventory, invoke, hr]

/- Phase 3 lemmas. -/

theorem await_release_flat (env : Env) (o : PreOrder) (s0 : SagaState) :
    FlatSeg s0 (await_release_with_timeout env o s0).entries
      (await_release_with_timeout env o s0).saga := by
  unfold await_release_with_timeout FlatSeg
  by_cases hd : o.release_date + one_week_seconds - env.now3 ≤ 0
  · simp [hd]
  · cases hobs : env.release_obs with
    | timedOut =>
      cases hcr : s0.cancel_requested <;> simp [hd, hobs, hcr]
    | satisfied c st =>
      cases hcr : s0.cancel_requested || c <;> simp [hd, hobs, hcr]

theorem await_release_props (env : Env) (o : PreOrder) (s0 : SagaState) :
    (∀ e ∈ (await_release_with_timeout env o s0).entries,
      isCompCallEv e.ev = false ∧ e.ev ≠ Event.setState OrderState.refunded ∧
      e.ev ≠ Event.setState OrderState.fulfillment_in_progress ∧ e.saga.order = s0.order)
    ∧ (await_release_with_timeout env o s0).saga.order = s0.order := by
  unfold await_release_with_timeout
  by_cases hd : o.release_date + one_week_seconds - env.now3 ≤ 0
  · simp [hd]
  · cases hobs : env.release_obs with
    | timedOut =>
      cases hcr : s0.cancel_requested <;> simp [hd, hobs, hcr]
    | satisfied c st =>
      cases hcr : s0.cancel_requested || c <;> simp [hd, hobs, hcr]

/- Pick-wait loop lemmas. -/

theorem await_item_picked_props (env : Env) (o : PreOrder) :
    ∀ (n k : Nat) (s : SagaState),
      (∀ e ∈ (await_item_picked env o n k s).entries,
        e.saga.compensation_log = s.compensation_log ∧ fwdOf e.ev = none ∧
        isCompCallEv e.ev = false ∧ (∀ st, e.ev ≠ Event.setState st) ∧
        e.saga.order = s.order)
      ∧ (await_item_picked env o n k s).saga.compensation_log = s.compensation_log
      ∧ (await_item_picked env o n k s).saga.order = s.order := by
  intro n
  induction n with
  | zero =>
    intro k s
    simp [await_item_picked]
  | succ n ih =>
    intro k s
    cases hr : env.reminder_results k with
    | err m => simp [await_item_picked, invoke, hr]
    | ok v =>
      simp only [await_item_picked, invoke, hr]
      refine ⟨?_, ((ih (k + 1) s).2.1), ((ih (k + 1) s).2.2)⟩
      intro e he
      rcases List.mem_cons.mp he with rfl | he
      · simp
      rcases List.mem_cons.mp he with rfl | he
      · simp
      exact (ih (k + 1) s).1 e he

/- Phase 4 lemmas. -/

theorem process_fulfillment_good (env : Env) (o : PreOrder) (s0 : SagaState) :
    GoodSeg s0 (process_fulfillment env o s0).entries (process_fulfillment env o s0).saga := by
  unfold GoodSeg
  cases hf : env.create_fulfillment_r with
  | err m =>
    simp only [process_fulfillment, invoke, hf]
    refine GoodSegL_cons_nonfwd rfl (by simp) ?_
    refine GoodSegL_cons_nonfwd rfl (fun _ => rfl) ?_
    exact GoodSegL_nil rfl
  | ok fid =>
    cases hp : env.request_pickup_r with
    | err m =>
      simp only [process_fulfillment, invoke, hp, hf]
      refine GoodSegL_cons_nonfwd rfl (by simp) ?_
      refine GoodSegL_cons_fwd rfl (fun _ => rfl) ?_
      refine GoodSegL_cons_nonfwd rfl (by simp) ?_
      refine GoodSegL_cons_nonfwd rfl
        (fun _ => by simp [get_compensation_log_eq, List.map_append]) ?_
      exact GoodSegL_nil (by simp [get_compensation_log_eq, List.map_append])
    | ok pid =>
      cases hn : env.notify_prepared with
      | err m =>
        simp only [process_fulfillment, invoke, notify, hn, hp, hf]
        refine GoodSegL_cons_nonfwd rfl (by simp) ?_
        refine GoodSegL_cons_fwd rfl (fun _ => rfl) ?_
        refine GoodSegL_cons_nonfwd rfl (by simp) ?_
        refine GoodSegL_cons_nonfwd rfl
          (fun _ => by simp [get_compensation_log_eq, List.map_append]) ?_
        refine GoodSegL_cons_nonfwd rfl
          (fun _ => by simp [get_compensation_log_eq, List.map_append]) ?_
        exact GoodSegL_nil (by simp [get_compensation_log_eq, List.map_append])
      | ok v =>
        simp only [process_fulfillment, invoke, notify, hn, hp, hf]
        refine GoodSegL_cons_nonfwd rfl (by simp) ?_
        refine GoodSegL_cons_fwd rfl (fun _ => rfl) ?_
        refine GoodSegL_cons_nonfwd rfl (by simp) ?_
        refine GoodSegL_cons_nonfwd rfl
          (fun _ => by simp [get_compensation_log_eq, List.map_append]) ?_
        refine GoodSegL_cons_nonfwd rfl
          (fun _ => by simp [get_compensation_log_eq, List.map_append]) ?_
        have hw := await_item_picked_props env o env.pick_timeouts 0
          { s0 with
            state := OrderState.fulfillment_in_progress
            fulfillment_id := some fid
            compensation_log :=
              s0.compensation_log ++
                [{ action := "fulfillment_created", resource_id := fid }] }
        simp only [List.append_eq, List.nil_append]
        constructor
        · intro i e hi hs
          have he := List.getElem?_mem hi
          rw [forwardOk_eq_nil_of_all_none (fun e he => (hw.1 e he).2.1) _
              (List.take_subset i _), List.append_nil,
            get_compensation_log_congr ((hw.1 e he).1)]
          simp [get_compensation_log_eq, List.map_append]
        · rw [forwardOk_eq_nil_of_all_none (fun e he => (hw.1 e he).2.1) _ (fun _ h => h),
            List.append_nil, get_compensation_log_congr (hw.2.1)]
          simp [get_compensation_log_eq, List.map_append]

theorem process_fulfillment_props (env : Env) (o : PreOrder) (s0 : SagaState) :
    (∀ e ∈ (process_fulfillment env o s0).entries,
      isCompCallEv e.ev = false ∧ e.ev ≠ Event.setState OrderState.refunded ∧
      e.saga.order = s0.order)
    ∧ (process_fulfillment env o s0).saga.order = s0.order := by
  cases hf : env.create_fulfillment_r with
  | err m => simp [process_fulfillment, invoke, hf]
  | ok fid =>
    cases hp : env.request_pickup_r with
    | err m => simp [process_fulfillment, invoke, hp, hf]
    | ok pid =>
      cases hn : env.notify_prepared with
      | err m => simp [process_fulfillment, invoke, notify, hn, hp, hf]
      | ok v =>
        simp only [process_fulfillment, invoke, notify, hn, hp, hf]
        have hw := await_item_picked_props env o env.pick_timeouts 0
          { s0 with
            state := OrderState.fulfillment_in_progress
            fulfillment_id := some fid
            compensation_log :=
              s0.compensation_log ++
                [{ action := "fulfillment_created", resource_id := fid }] }
        constructor
        · intro e he
          simp only [List.cons_append, List.nil_append, List.mem_cons] at he
          rcases he with rfl | rfl | rfl | rfl | rfl | he
          · simp
          · simp
          · simp
          · simp
          · simp
          · have h1 := (hw.1 e he).2.2.1
            have h2 := (hw.1 e he).2.2.2.1 OrderState.refunded
            have h3 := (hw.1 e he).2.2.2.2
            exact ⟨h1, h2, h3⟩
        · exact hw.2.2

theorem process_fulfillment_head (env : Env) (o : PreOrder) (s0 : SagaState) :
    Event.setState OrderState.fulfillment_in_progress ∈
      events (process_fulfillment env o s0).entries := by
  cases hf : env.create_fulfillment_r with
  | err m => simp [process_fulfillment, invoke, hf]
  | ok fid =>
    cases hp : env.request_pickup_r with
    | err m => simp [process_fulfillment, invoke, hp, hf]
    | ok pid =>
      cases hn : env.notify_prepared with
      | err m => simp [process_fulfillment, invoke, notify, hn, hp, hf]
      | ok v => simp [process_fulfillment, invoke, notify, hn, hp, hf]

/- Phase 5 lemmas. -/

theorem await_delivery_flat (env : Env) (o : PreOrder) (s0 : SagaState) :
    FlatSeg s0 (await_delivery_confirmation env o s0).entries
      (await_delivery_confirmation env o s0).saga := by
  unfold FlatSeg
  cases hn : env.notify_picked with
  | err m => simp [await_delivery_confirmation, invoke, notify, hn]
  | ok v => simp [await_delivery_confirmation, invoke, notify, hn]

theorem await_delivery_props (env : Env) (o : PreOrder) (s0 : SagaState) :
    (∀ e ∈ (await_delivery_confirmation env o s0).entries,
      isCompCallEv e.ev = false ∧ e.ev ≠ Event.setState OrderState.refunded ∧
      e.saga.order = s0.order)
    ∧ (await_delivery_confirmation env o s0).saga.order = s0.order := by
  cases hn : env.notify_picked with
  | err m => simp [await_delivery_confirmation, invoke, notify, hn]
  | ok v => simp [await_delivery_confirmation, invoke, notify, hn]

/- Compensation lemmas. -/

theorem compensate_loop_props (env : Env) :
    ∀ (l : List CompensationRecord) (k : Nat) (s : SagaState),
      ∀ e ∈ (compensate_loop env k s l).1,
        e.saga = s ∧ fwdOf e.ev = none ∧ (∀ st, e.ev ≠ Event.setState st) := by
  intro l
  induction l with
  | nil =>
    intro k s e he
    simp [compensate_loop] at he
  | cons r rest ih =>
    intro k s e he
    unfold compensate_loop compensate_action at he
    cases hm : compensation_map r.action with
    | none =>
      rw [hm] at he
      simp only at he
      exact ih (k + 1) s e he
    | some nm =>
      have hmem := compensation_map_mem hm
      rw [hm] at he
      cases hcr : env.comp_results k with
      | ok v =>
        rw [hcr] at he
        simp only [invoke, List.cons_append, List.nil_append, List.mem_cons] at he
        rcases he with rfl | he
        · refine ⟨rfl, ?_, by simp⟩
          rw [fwdOf_actOk, hmem.2]
          rfl
        · exact ih (k + 1) s e he
      | err m =>
        rw [hcr] at he
        simp only [invoke, List.mem_singleton] at he
        subst he
        refine ⟨rfl, ?_, by simp⟩
        simp

@[simp] theorem compCallOf_setState (st : OrderState) :
    compCallOf (Event.setState st) = none := rfl

@[simp] theorem compCallOf_record (a r : String) : compCallOf (Event.record a r) = none := rfl

@[simp] theorem compCallOf_waitSat (n : String) : compCallOf (Event.waitSat n) = none := rfl

@[simp] theorem compCallOf_waitTimeout (n : String) :
    compCallOf (Event.waitTimeout n) = none := rfl

@[simp] theorem compCallOf_actOk (n : String) (a : List String) (r : String) :
    compCallOf (Event.actOk n a r) =
      if comp_activity_names.contains n then some (n, a) else none := rfl

@[simp] theorem compCallOf_actErr (n : String) (a : List String) (m : String) :
    compCallOf (Event.actErr n a m) =
      if comp_activity_names.contains n then some (n, a) else none := rfl

@[simp] theorem compCalls_nil : compCalls [] = [] := rfl

@[simp] theorem compCalls_append (t₁ t₂ : List Entry) :
    compCalls (t₁ ++ t₂) = compCalls t₁ ++ compCalls t₂ := by
  unfold compCalls
  rw [events_append, List.filterMap_append]

theorem compCalls_cons (e : Entry) (t : List Entry) :
    compCalls (e :: t) =
      (match compCallOf e.ev with
       | some p => p :: compCalls t
       | none => compCalls t) := by
  unfold compCalls
  rw [events_cons, List.filterMap_cons]
  cases compCallOf e.ev <;> rfl

@[simp] theorem compCalls_cons_none {e : Entry} (h : compCallOf e.ev = none)
    (t : List Entry) : compCalls (e :: t) = compCalls t := by
  rw [compCalls_cons, h]

@[simp] theorem compCalls_cons_some {e : Entry} {p : String × List String}
    (h : compCallOf e.ev = some p) (t : List Entry) :
    compCalls (e :: t) = p :: compCalls t := by
  rw [compCalls_cons, h]

theorem isCompCallEv_false_of_compCallOf_none {e : Event} (h : compCallOf e = none) :
    isCompCallEv e = false := by
  cases e <;> simp_all [compCallOf, isCompCallEv, callOf]

theorem notify_entry_props (o : PreOrder) (s : SagaState) (r : ActResult)
    (subject message : String) :
    (notify o s r subject message).1.saga = s ∧
    fwdOf (notify o s r subject message).1.ev = none ∧
    (∀ st, (notify o s r subject message).1.ev ≠ Event.setState st) ∧
    compCallOf (notify o s r subject message).1.ev = none := by
  cases r <;> simp [notify, invoke]

theorem compensate_cases (env : Env) (o : PreOrder) (s0 : SagaState) :
    ∃ tl, (compensate env o s0).entries =
        { ev := Event.setState OrderState.refunded,
          saga := { s0 with state := OrderState.refunded } } :: tl
      ∧ (∀ e ∈ tl, e.saga = { s0 with state := OrderState.refunded } ∧ fwdOf e.ev = none ∧
          (∀ st, e.ev ≠ Event.setState st))
      ∧ (compensate env o s0).saga = { s0 with state := OrderState.refunded } := by
  simp only [compensate]
  cases hres : (compensate_loop env 0 { s0 with state := OrderState.refunded }
      s0.compensation_log.reverse).2 with
  | error m =>
    refine ⟨_, rfl, ?_, rfl⟩
    intro e he
    exact compensate_loop_props env _ 0 _ e he
  | ok u =>
    cases hnot : notify o { s0 with state := OrderState.refunded } env.notify_refund
        ("Order Refunded")
        ("Your order has been cancelled and $" ++ toString o.amount ++
          " will be refunded.") with
    | mk e2 r2 =>
      have h1 := congrArg Prod.fst hnot
      have hn := notify_entry_props o { s0 with state := OrderState.refunded }
        env.notify_refund ("Order Refunded")
        ("Your order has been cancelled and $" ++ toString o.amount ++ " will be refunded.")
      rw [h1] at hn
      have hmem : ∀ e ∈ (compensate_loop env 0
          ({ s0 with state := OrderState.refunded } : SagaState)
          s0.compensation_log.reverse).1 ++ [e2],
          e.saga = { s0 with state := OrderState.refunded } ∧ fwdOf e.ev = none ∧
          (∀ st, e.ev ≠ Event.setState st) := by
        intro e he
        rcases List.mem_append.mp he with he | he
        · exact compensate_loop_props env _ 0 _ e he
        · rcases List.mem_singleton.mp he with rfl
          exact ⟨hn.1, hn.2.1, hn.2.2.1⟩
      cases r2 with
      | ok u2 => exact ⟨_, List.cons_append _ _ _, hmem, rfl⟩
      | error m2 => exact ⟨_, List.cons_append _ _ _, hmem, rfl⟩

theorem compensate_flat (env : Env) (o : PreOrder) (s0 : SagaState) :
    FlatSeg s0 (compensate env o s0).entries (compensate env o s0).saga := by
  obtain ⟨tl, hent, htl, hsaga⟩ := compensate_cases env o s0
  constructor
  · intro e he
    rw [hent] at he
    rcases List.mem_cons.mp he with rfl | he
    · exact ⟨rfl, rfl⟩
    · have h := htl e he
      refine ⟨?_, h.2.1⟩
      rw [h.1]
  · rw [hsaga]

theorem compensate_props (env : Env) (o : PreOrder) (s0 : SagaState) :
    (∀ e ∈ (compensate env o s0).entries,
      e.saga.state = OrderState.refunded ∧
      e.ev ≠ Event.setState OrderState.fulfillment_in_progress ∧
      e.saga.order = s0.order)
    ∧ (compensate env o s0).saga.order = s0.order
    ∧ (compensate env o s0).saga.state = OrderState.refunded := by
  obtain ⟨tl, hent, htl, hsaga⟩ := compensate_cases env o s0
  refine ⟨?_, by rw [hsaga], by rw [hsaga]⟩
  intro e he
  rw [hent] at he
  rcases List.mem_cons.mp he with rfl | he
  · exact ⟨rfl, by simp, rfl⟩
  · have h := htl e he
    exact ⟨by rw [h.1], h.2.2 _, by rw [h.1]⟩

/- In a trace made of a compensation-free prefix followed by the compensator's
entries, the REFUNDED transition occurs strictly before every compensating
invocation. -/

theorem comp_after_refunded {A tl : List Entry} {hd : Entry}
    (hhd : hd.ev = Event.setState OrderState.refunded)
    (hA : ∀ e ∈ A, isCompCallEv e.ev = false) :
    ∀ (j : Nat) (ev : Event), (events (A ++ hd :: tl))[j]? = some ev →
      isCompCallEv ev = true →
      ∃ i : Nat, i < j ∧
        (events (A ++ hd :: tl))[i]? = some (Event.setState OrderState.refunded) := by
  intro j ev hj hcomp
  have hlen : (events A).length = A.length := List.length_map A Entry.ev
  refine ⟨A.length, ?_, ?_⟩
  · rcases Nat.lt_trichotomy j A.length with hlt | heq | hgt
    · exfalso
      rw [events_append, List.getElem?_append_left (by rw [hlen]; exact hlt)] at hj
      have hmem : ev ∈ events A := List.getElem?_mem hj
      rcases List.mem_map.mp hmem with ⟨e, he, rfl⟩
      rw [hA e he] at hcomp
      exact Bool.false_ne_true hcomp
    · exfalso
      subst heq
      rw [events_append, List.getElem?_append_right hlen.le, hlen, Nat.sub_self,
        events_cons, List.getElem?_cons_zero] at hj
      cases Option.some.inj hj
      rw [hhd] at hcomp
      simp at hcomp
    · exact hgt
  · rw [events_append, List.getElem?_append_right hlen.le, hlen, Nat.sub_self,
      events_cons, List.getElem?_cons_zero, hhd]

/- With every compensating activity succeeding, the compensator's invocations
are exactly the reverse of the log, each record mapped through the table and
given its resource id as the only argument. -/

theorem compensate_loop_calls (env : Env) (cr : Nat → String)
    (hcomp : ∀ k, env.comp_results k = ActResult.ok (cr k)) :
    ∀ (l : List CompensationRecord) (k : Nat) (s : SagaState),
      compCalls (compensate_loop env k s l).1 =
        l.filterMap
          (fun r => (compensation_map r.action).map (fun nm => (nm, [r.resource_id])))
      ∧ (compensate_loop env k s l).2 = Except.ok () := by
  intro l
  induction l with
  | nil => intro k s; exact ⟨rfl, rfl⟩
  | cons r rest ih =>
    intro k s
    unfold compensate_loop compensate_action
    cases hm : compensation_map r.action with
    | none =>
      simp only [hm, List.nil_append]
      refine ⟨?_, (ih (k + 1) s).2⟩
      rw [(ih (k + 1) s).1]
      simp [List.filterMap_cons, hm]
    | some nm =>
      have hmem := compensation_map_mem hm
      have hcnm : comp_activity_names.contains nm = true := hmem.1
      have hco : compCallOf (Event.actOk nm [r.resource_id] (cr k)) =
          some (nm, [r.resource_id]) := by
        rw [compCallOf_actOk, hcnm]
        rfl
      simp only [hm, hcomp k, invoke, List.cons_append, List.nil_append]
      refine ⟨?_, (ih (k + 1) s).2⟩
      rw [compCalls_cons_some hco, (ih (k + 1) s).1]
      simp [List.filterMap_cons, hm]

theorem compensate_calls (env : Env) (o : PreOrder) (s0 : SagaState) (cr : Nat → String)
    (hcomp : ∀ k, env.comp_results k = ActResult.ok (cr k)) :
    compCalls (compensate env o s0).entries =
      s0.compensation_log.reverse.filterMap
        (fun r => (compensation_map r.action).map (fun nm => (nm, [r.resource_id]))) := by
  have h := compensate_loop_calls env cr hcomp s0.compensation_log.reverse 0
    { s0 with state := OrderState.refunded }
  simp only [compensate]
  rw [h.2]
  cases hnot : notify o { s0 with state := OrderState.refunded } env.notify_refund
      ("Order Refunded")
      ("Your order has been cancelled and $" ++ toString o.amount ++
        " will be refunded.") with
  | mk e2 r2 =>
    have h1 := congrArg Prod.fst hnot
    have hn := notify_entry_props o { s0 with state := OrderState.refunded }
      env.notify_refund ("Order Refunded")
      ("Your order has been cancelled and $" ++ toString o.amount ++ " will be refunded.")
    rw [h1] at hn
    have hcc : compCalls ((Entry.mk (Event.setState OrderState.refunded)
          { s0 with state := OrderState.refunded } ::
          (compensate_loop env 0 { s0 with state := OrderState.refunded }
            s0.compensation_log.reverse).1) ++ [e2]) =
        s0.compensation_log.reverse.filterMap
          (fun r => (compensation_map r.action).map (fun nm => (nm, [r.resource_id]))) := by
      rw [compCalls_append, compCalls_cons_none (by simp), h.1,
        compCalls_cons_none hn.2.2.2, compCalls_nil, List.append_nil]
    cases r2 with
    | ok u2 => exact hcc
    | error m2 => exact hcc

/- The master characterization of a full run: the compensation-log invariant
holds along the whole trace, every compensating invocation happens in the
REFUNDED state and strictly after the REFUNDED transition, no trace containing
the FULFILLMENT_IN_PROGRESS transition contains a compensating invocation or a
REFUNDED transition, and the bound order is preserved to the final state. -/

theorem run_master (env : Env) (o : PreOrder) :
    GoodSeg { initSagaState with order := some o } (run env o).trace (run env o).final
    ∧ (∀ e ∈ (run env o).trace, isCompCallEv e.ev = true →
        e.saga.state = OrderState.refunded)
    ∧ ((Event.setState OrderState.fulfillment_in_progress ∈ events (run env o).trace) →
        ∀ ev ∈ events (run env o).trace,
          isCompCallEv ev = false ∧ ev ≠ Event.setState OrderState.refunded)
    ∧ (∀ (j : Nat) (ev : Event), (events (run env o).trace)[j]? = some ev →
        isCompCallEv ev = true →
        ∃ i : Nat, i < j ∧
          (events (run env o).trace)[i]? = some (Event.setState OrderState.refunded))
    ∧ (run env o).final.order = some o := by
  have hP1 := process_payment_props env o { initSagaState with order := some o }
  cases h1 : (process_payment env o { initSagaState with order := some o }).result with
  | error m1 =>
    simp only [run, h1]
    refine ⟨process_payment_good env o _, ?_, ?_, ?_, ?_⟩
    · intro e he hc
      rw [(hP1.1 e he).1] at hc
      exact absurd hc (by simp)
    · intro hmem
      exact absurd hmem (not_mem_events (fun e he => (hP1.1 e he).2.2.1))
    · intro j ev hj hc
      rcases List.mem_map.mp (List.getElem?_mem hj) with ⟨e, he, rfl⟩
      rw [(hP1.1 e he).1] at hc
      exact absurd hc (by simp)
    · rw [hP1.2]
  | ok u1 =>
    have hP2 := reserve_inventory_props env o
      (process_payment env o { initSagaState with order := some o }).saga
    cases h2 : (reserve_inventory env o
        (process_payment env o { initSagaState with order := some o }).saga).result with
    | error m2 =>
      have hC := compensate_props env o (reserve_inventory env o
        (process_payment env o { initSagaState with order := some o }).saga).saga
      obtain ⟨tl, hent, htl, hsaga⟩ := compensate_cases env o (reserve_inventory env o
        (process_payment env o { initSagaState with order := some o }).saga).saga
      simp only [run, h1, h2]
      refine ⟨?_, ?_, ?_, ?_, ?_⟩
      · exact GoodSeg_append (process_payment_good env o _)
          (GoodSeg_append (reserve_inventory_good env o _)
            (FlatSeg.goodSeg (compensate_flat env o _)))
      · intro e he hc
        rcases List.mem_append.mp he with he | he
        · rw [(hP1.1 e he).1] at hc
          exact absurd hc (by simp)
        rcases List.mem_append.mp he with he | he
        · rw [(hP2.1 e he).1] at hc
          exact absurd hc (by simp)
        · exact (hC.1 e he).1
      · intro hmem
        simp only [events_append] at hmem
        rcases List.mem_append.mp hmem with hm | hm
        · exact absurd hm (not_mem_events (fun e he => (hP1.1 e he).2.2.1))
        rcases List.mem_append.mp hm with hm | hm
        · exact absurd hm (not_mem_events (fun e he => (hP2.1 e he).2.2.1))
        · exact absurd hm (not_mem_events (fun e he => (hC.1 e he).2.1))
      · rw [hent, ← List.append_assoc]
        refine comp_after_refunded rfl ?_
        intro e he
        rcases List.mem_append.mp he with he | he
        · exact (hP1.1 e he).1
        · exact (hP2.1 e he).1
      · rw [hC.2.1, hP2.2, hP1.2]
    | ok u2 =>
      have hP3 := await_release_props env o (reserve_inventory env o
        (process_payment env o { initSagaState with order := some o }).saga).saga
      cases h3 : (await_release_with_timeout env o (reserve_inventory env o
          (process_payment env o { initSagaState with order := some o }).saga).saga).result with
      | error m3 =>
        have hC := compensate_props env o (await_release_with_timeout env o
          (reserve_inventory env o
            (process_payment env o { initSagaState with order := some o }).saga).saga).saga
        obtain ⟨tl, hent, htl, hsaga⟩ := compensate_cases env o (await_release_with_timeout
          env o (reserve_inventory env o
            (process_payment env o { initSagaState with order := some o }).saga).saga).saga
        simp only [run, h1, h2, h3]
        refine ⟨?_, ?_, ?_, ?_, ?_⟩
        · exact GoodSeg_append (process_payment_good env o _)
            (GoodSeg_append (reserve_inventory_good env o _)
              (GoodSeg_append (FlatSeg.goodSeg (await_release_flat env o _))
                (FlatSeg.goodSeg (compensate_flat env o _))))
        · intro e he hc
          rcases List.mem_append.mp he with he | he
          · rw [(hP1.1 e he).1] at hc
            exact absurd hc (by simp)
          rcases List.mem_append.mp he with he | he
          · rw [(hP2.1 e he).1] at hc
            exact absurd hc (by simp)
          rcases List.mem_append.mp he with he | he
          · rw [(hP3.1 e he).1] at hc
            exact absurd hc (by simp)
          · exact (hC.1 e he).1
        · intro hmem
          simp only [events_append] at hmem
          rcases List.mem_append.mp hmem with hm | hm
          · exact absurd hm (not_mem_events (fun e he => (hP1.1 e he).2.2.1))
          rcases List.mem_append.mp hm with hm | hm
          · exact absurd hm (not_mem_events (fun e he => (hP2.1 e he).2.2.1))
          rcases List.mem_append.mp hm with hm | hm
          · exact absurd hm (not_mem_events (fun e he => (hP3.1 e he).2.2.1))
          · exact absurd hm (not_mem_events (fun e he => (hC.1 e he).2.1))
        · rw [hent, ← List.append_assoc, ← List.append_assoc]
          refine comp_after_refunded rfl ?_
          intro e he
          rcases List.mem_append.mp he with he | he
          · rcases List.mem_append.mp he with he | he
            · exact (hP1.1 e he).1
            · exact (hP2.1 e he).1
          · exact (hP3.1 e he).1
        · rw [hC.2.1, hP3.2, hP2.2, hP1.2]
      | ok u3 =>
        have hP4 := process_fulfillment_props env o (await_release_with_timeout env o
          (reserve_inventory env o
            (process_payment env o { initSagaState with order := some o }).saga).saga).saga
        cases h4 : (process_fulfillment env o (await_release_with_timeout env o
            (reserve_inventory env o
              (process_payment env o
                { initSagaState with order := some o }).saga).saga).saga).result with
        | error m4 =>
          simp only [run, h1, h2, h3, h4]
          refine ⟨?_, ?_, ?_, ?_, ?_⟩
          · exact GoodSeg_append (process_payment_good env o _)
              (GoodSeg_append (reserve_inventory_good env o _)
                (GoodSeg_append (FlatSeg.goodSeg (await_release_flat env o _))
                  (process_fulfillment_good env o _)))
          · intro e he hc
            rcases List.mem_append.mp he with he | he
            · rw [(hP1.1 e he).1] at hc
              exact absurd hc (by simp)
            rcases List.mem_append.mp he with he | he
            · rw [(hP2.1 e he).1] at hc
              exact absurd hc (by simp)
            rcases List.mem_append.mp he with he | he
            · rw [(hP3.1 e he).1] at hc
              exact absurd hc (by simp)
            · rw [(hP4.1 e he).1] at hc
              exact absurd hc (by simp)
          · intro hmem
            intro ev hev
            rcases List.mem_map.mp hev with ⟨e, he, rfl⟩
            rcases List.mem_append.mp he with he | he
            · exact ⟨(hP1.1 e he).1, (hP1.1 e he).2.1⟩
            rcases List.mem_append.mp he with he | he
            · exact ⟨(hP2.1 e he).1, (hP2.1 e he).2.1⟩
            rcases List.mem_append.mp he with he | he
            · exact ⟨(hP3.1 e he).1, (hP3.1 e he).2.1⟩
            · exact ⟨(hP4.1 e he).1, (hP4.1 e he).2.1⟩
          · intro j ev hj hc
            have hmem := List.getElem?_mem hj
            rcases List.mem_map.mp hmem with ⟨e, he, rfl⟩
            have hfalse : isCompCallEv e.ev = false := by
              rcases List.mem_append.mp he with he | he
              · exact (hP1.1 e he).1
              rcases List.mem_append.mp he with he | he
              · exact (hP2.1 e he).1
              rcases List.mem_append.mp he with he | he
              · exact (hP3.1 e he).1
              · exact (hP4.1 e he).1
            rw [hfalse] at hc
            exact absurd hc (by simp)
          · rw [hP4.2, hP3.2, hP2.2, hP1.2]
        | ok u4 =>
          have hP5 := await_delivery_props env o (process_fulfillment env o
            (await_release_with_timeout env o (reserve_inventory env o
              (process_payment env o
                { initSagaState with order := some o }).saga).saga).saga).saga
          cases h5 : (await_delivery_confirmation env o (process_fulfillment env o
              (await_release_with_timeout env o (reserve_inventory env o
                (process_payment env o
                  { initSagaState with order := some o }).saga).saga).saga).saga).result with
          | error m5 =>
            simp only [run, h1, h2, h3, h4, h5]
            refine ⟨?_, ?_, ?_, ?_, ?_⟩
            · exact GoodSeg_append (process_payment_good env o _)
                (GoodSeg_append (reserve_inventory_good env o _)
                  (GoodSeg_append (FlatSeg.goodSeg (await_release_flat env o _))
                    (GoodSeg_append (process_fulfillment_good env o _)
                      (FlatSeg.goodSeg (await_delivery_flat env o _)))))
            · intro e he hc
              rcases List.mem_append.mp he with he | he
              · rw [(hP1.1 e he).1] at hc
                exact absurd hc (by simp)
              rcases List.mem_append.mp he with he | he
              · rw [(hP2.1 e he).1] at hc
                exact absurd hc (by simp)
              rcases List.mem_append.mp he with he | he
              · rw [(hP3.1 e he).1] at hc
                exact absurd hc (by simp)
              rcases List.mem_append.mp he with he | he
              · rw [(hP4.1 e he).1] at hc
                exact absurd hc (by simp)
              · rw [(hP5.1 e he).1] at hc
                exact absurd hc (by simp)
            · intro hmem
              intro ev hev
              rcases List.mem_map.mp hev with ⟨e, he, rfl⟩
              rcases List.mem_append.mp he with he | he
              · exact ⟨(hP1.1 e he).1, (hP1.1 e he).2.1⟩
              rcases List.mem_append.mp he with he | he
              · exact ⟨(hP2.1 e he).1, (hP2.1 e he).2.1⟩
              rcases List.mem_append.mp he with he | he
              · exact ⟨(hP3.1 e he).1, (hP3.1 e he).2.1⟩
              rcases List.mem_append.mp he with he | he
              · exact ⟨(hP4.1 e he).1, (hP4.1 e he).2.1⟩
              · exact ⟨(hP5.1 e he).1, (hP5.1 e he).2.1⟩
            · intro j ev hj hc
              have hmem := List.getElem?_mem hj
              rcases List.mem_map.mp hmem with ⟨e, he, rfl⟩
              have hfalse : isCompCallEv e.ev = false := by
                rcases List.mem_append.mp he with he | he
                · exact (hP1.1 e he).1
                rcases List.mem_append.mp he with he | he
                · exact (hP2.1 e he).1
                rcases List.mem_append.mp he with he | he
                · exact (hP3.1 e he).1
                rcases List.mem_append.mp he with he | he
                · exact (hP4.1 e he).1
                · exact (hP5.1 e he).1
              rw [hfalse] at hc
              exact absurd hc (by simp)
            · rw [hP5.2, hP4.2, hP3.2, hP2.2, hP1.2]
          | ok u5 =>
            have hnp := notify_entry_props o
              { (await_delivery_confirmation env o (process_fulfillment env o
                  (await_release_with_timeout env o (reserve_inventory env o
                    (process_payment env o
                      { initSagaState with order := some o }).saga).saga).saga).saga).saga
                with state := OrderState.delivered }
              env.notify_completed ("Order Completed!")
              ("Your " ++ o.product_name ++ " has been delivered!")
            cases hnot : notify o
                { (await_delivery_confirmation env o (process_fulfillment env o
                    (await_release_with_timeout env o (reserve_inventory env o
                      (process_payment env o
                        { initSagaState with order := some o }).saga).saga).saga).saga).saga
                  with state := OrderState.delivered }
                env.notify_completed ("Order Completed!")
                ("Your " ++ o.product_name ++ " has been delivered!") with
            | mk e7 r7 =>
              rw [hnot] at hnp
              have he7comp : isCompCallEv e7.ev = false :=
                isCompCallEv_false_of_compCallOf_none hnp.2.2.2
              have htail : ∀ e ∈ ([Entry.mk (Event.setState OrderState.delivered)
                  { (await_delivery_confirmation env o (process_fulfillment env o
                    (await_release_with_timeout env o (reserve_inventory env o
                      (process_payment env o
                        { initSagaState with order := some o }).saga).saga).saga).saga).saga
                    with state := OrderState.delivered }, e7] : List Entry),
                  isCompCallEv e.ev = false ∧ e.ev ≠ Event.setState OrderState.refunded := by
                intro e he
                rcases List.mem_cons.mp he with rfl | he
                · exact ⟨rfl, by simp⟩
                rcases List.mem_singleton.mp he with rfl
                exact ⟨he7comp, hnp.2.2.1 OrderState.refunded⟩
              have hgtail : GoodSegL (get_compensation_log
                  (await_delivery_confirmation env o (process_fulfillment env o
                    (await_release_with_timeout env o (reserve_inventory env o
                      (process_payment env o
                        { initSagaState with order := some o }).saga).saga).saga).saga).saga)
                  [Entry.mk (Event.setState OrderState.delivered)
                     { (await_delivery_confirmation env o (process_fulfillment env o
                       (await_release_with_timeout env o (reserve_inventory env o
                         (process_payment env o
                           { initSagaState with order := some o }).saga).saga).saga).saga).saga
                       with state := OrderState.delivered }, e7]
                  { (await_delivery_confirmation env o (process_fulfillment env o
                    (await_release_with_timeout env o (reserve_inventory env o
                      (process_payment env o
                        { initSagaState with order := some o }).saga).saga).saga).saga).saga
                    with state := OrderState.delivered } := by
                refine GoodSegL_cons_nonfwd rfl (by simp) ?_
                refine GoodSegL_cons_nonfwd hnp.2.1 ?_ (GoodSegL_nil rfl)
                intro _
                rw [hnp.1]
                rfl
              cases r7 with
              | ok u7 =>
                simp only [run, h1, h2, h3, h4, h5, hnot]
                refine ⟨?_, ?_, ?_, ?_, ?_⟩
                · exact GoodSeg_append (process_payment_good env o _)
                    (GoodSeg_append (reserve_inventory_good env o _)
                      (GoodSeg_append (FlatSeg.goodSeg (await_release_flat env o _))
                        (GoodSeg_append (process_fulfillment_good env o _)
                          (GoodSeg_append
                            (FlatSeg.goodSeg (await_delivery_flat env o _)) hgtail))))
                · intro e he hc
                  rcases List.mem_append.mp he with he | he
                  · rw [(hP1.1 e he).1] at hc
                    exact absurd hc (by simp)
                  rcases List.mem_append.mp he with he | he
                  · rw [(hP2.1 e he).1] at hc
                    exact absurd hc (by simp)
                  rcases List.mem_append.mp he with he | he
                  · rw [(hP3.1 e he).1] at hc
                    exact absurd hc (by simp)
                  rcases List.mem_append.mp he with he | he
                  · rw [(hP4.1 e he).1] at hc
                    exact absurd hc (by simp)
                  rcases List.mem_append.mp he with he | he
                  · rw [(hP5.1 e he).1] at hc
                    exact absurd hc (by simp)
                  · rw [(htail e he).1] at hc
                    exact absurd hc (by simp)
                · intro hmem
                  intro ev hev
                  rcases List.mem_map.mp hev with ⟨e, he, rfl⟩
                  rcases List.mem_append.mp he with he | he
                  · exact ⟨(hP1.1 e he).1, (hP1.1 e he).2.1⟩
                  rcases List.mem_append.mp he with he | he
                  · exact ⟨(hP2.1 e he).1, (hP2.1 e he).2.1⟩
                  rcases List.mem_append.mp he with he | he
                  · exact ⟨(hP3.1 e he).1, (hP3.1 e he).2.1⟩
                  rcases List.mem_append.mp he with he | he
                  · exact ⟨(hP4.1 e he).1, (hP4.1 e he).2.1⟩
                  rcases List.mem_append.mp he with he | he
                  · exact ⟨(hP5.1 e he).1, (hP5.1 e he).2.1⟩
                  · exact htail e he
                · intro j ev hj hc
                  have hmem := List.getElem?_mem hj
                  rcases List.mem_map.mp hmem with ⟨e, he, rfl⟩
                  have hfalse : isCompCallEv e.ev = false := by
                    rcases List.mem_append.mp he with he | he
                    · exact (hP1.1 e he).1
                    rcases List.mem_append.mp he with he | he
                    · exact (hP2.1 e he).1
                    rcases List.mem_append.mp he with he | he
                    · exact (hP3.1 e he).1
                    rcases List.mem_append.mp he with he | he
                    · exact (hP4.1 e he).1
                    rcases List.mem_append.mp he with he | he
                    · exact (hP5.1 e he).1
                    · exact (htail e he).1
                  rw [hfalse] at hc
                  exact absurd hc (by simp)
                · rw [hP5.2, hP4.2, hP3.2, hP2.2, hP1.2]
              | error m7 =>
                simp only [run, h1, h2, h3, h4, h5, hnot]
                refine ⟨?_, ?_, ?_, ?_, ?_⟩
                · exact GoodSeg_append (process_payment_good env o _)
                    (GoodSeg_append (reserve_inventory_good env o _)
                      (GoodSeg_append (FlatSeg.goodSeg (await_release_flat env o _))
                        (GoodSeg_append (process_fulfillment_good env o _)
                          (GoodSeg_append
                            (FlatSeg.goodSeg (await_delivery_flat env o _)) hgtail))))
                · intro e he hc
                  rcases List.mem_append.mp he with he | he
                  · rw [(hP1.1 e he).1] at hc
                    exact absurd hc (by simp)
                  rcases List.mem_append.mp he with he | he
                  · rw [(hP2.1 e he).1] at hc
                    exact absurd hc (by simp)
                  rcases List.mem_append.mp he with he | he
                  · rw [(hP3.1 e he).1] at hc
                    exact absurd hc (by simp)
                  rcases List.mem_append.mp he with he | he
                  · rw [(hP4.1 e he).1] at hc
                    exact absurd hc (by simp)
                  rcases List.mem_append.mp he with he | he
                  · rw [(hP5.1 e he).1] at hc
                    exact absurd hc (by simp)
                  · rw [(htail e he).1] at hc
                    exact absurd hc (by simp)
                · intro hmem
                  intro ev hev
                  rcases List.mem_map.mp hev with ⟨e, he, rfl⟩
                  rcases List.mem_append.mp he with he | he
                  · exact ⟨(hP1.1 e he).1, (hP1.1 e he).2.1⟩
                  rcases List.mem_append.mp he with he | he
                  · exact ⟨(hP2.1 e he).1, (hP2.1 e he).2.1⟩
                  rcases List.mem_append.mp he with he | he
                  · exact ⟨(hP3.1 e he).1, (hP3.1 e he).2.1⟩
                  rcases List.mem_append.mp he with he | he
                  · exact ⟨(hP4.1 e he).1, (hP4.1 e he).2.1⟩
                  rcases List.mem_append.mp he with he | he
                  · exact ⟨(hP5.1 e he).1, (hP5.1 e he).2.1⟩
                  · exact htail e he
                · intro j ev hj hc
                  have hmem := List.getElem?_mem hj
                  rcases List.mem_map.mp hmem with ⟨e, he, rfl⟩
                  have hfalse : isCompCallEv e.ev = false := by
                    rcases List.mem_append.mp he with he | he
                    · exact (hP1.1 e he).1
                    rcases List.mem_append.mp he with he | he
                    · exact (hP2.1 e he).1
                    rcases List.mem_append.mp he with he | he
                    · exact (hP3.1 e he).1
                    rcases List.mem_append.mp he with he | he
                    · exact (hP4.1 e he).1
                    rcases List.mem_append.mp he with he | he
                    · exact (hP5.1 e he).1
                    · exact (htail e he).1
                  rw [hfalse] at hc
                  exact absurd hc (by simp)
                · rw [hP5.2, hP4.2, hP3.2, hP2.2, hP1.2]

/- A compensation path always produces an ok result when every compensating
invocation and the refund notification succeed. -/

theorem compensate_result_ok (env : Env) (o : PreOrder) (s0 : SagaState)
    (cr : Nat → String) (hcomp : ∀ k, env.comp_results k = ActResult.ok (cr k))
    (v2 : String) (hrn : env.notify_refund = ActResult.ok v2) :
    (compensate env o s0).result = Except.ok () := by
  have h := compensate_loop_calls env cr hcomp s0.compensation_log.reverse 0
    { s0 with state := OrderState.refunded }
  simp only [compensate]
  rw [h.2]
  simp [notify, invoke, hrn]

/- Concrete fixtures used by the witnesses and counterexamples. -/

def o77 : PreOrder :=
  { order_id := "ORD-1"
    customer_email := "customer@example.com"
    product_name := "Mega Bot 2077"
    amount := 888
    payment_method_id := "pm_card_visa"
    release_date := 0 }

def envBase : Env :=
  { charge := ActResult.ok ("CH-1")
    notify_confirm := ActResult.ok ("N1")
    reserve := ActResult.ok ("RES-1")
    now3 := 0
    release_obs := ReleaseObs.satisfied false true
    create_fulfillment_r := ActResult.ok ("FULL-1")
    request_pickup_r := ActResult.ok ("PICKUP-1")
    notify_prepared := ActResult.ok ("N2")
    pick_timeouts := 0
    reminder_results := fun _ => ActResult.ok ("N3")
    late_cancel_pick := false
    notify_picked := ActResult.ok ("N4")
    late_cancel_delivery := false
    notify_completed := ActResult.ok ("N5")
    comp_results := fun _ => ActResult.ok ("CP")
    notify_refund := ActResult.ok ("N6") }

def env77 : Env := { envBase with notify_confirm := ActResult.err ("notification gateway down") }

def envD : Env := { envBase with charge := ActResult.err ("Payment declined - insufficient funds") }

def envT : Env := { envBase with release_obs := ReleaseObs.timedOut }

def envC : Env := { envBase with release_obs := ReleaseObs.satisfied true false }

def sW : SagaState :=
  { initSagaState with compensation_log :=
      [{ action := "payment_charged", resource_id := "c1" },
       { action := "inventory_reserved", resource_id := "r1" },
       { action := "mystery_action", resource_id := "x1" }] }

/-- C2: for every compensation log [A, B, C] (insertion order), the
compensation protocol invokes compensating activities in strict reverse
insertion order C, B, A, mapping each record's action by the fixed table
payment_charged to refund_payment, inventory_reserved to release_inventory,
fulfillment_created to cancel_fulfillment, passing the record's resource id
as the argument; a record whose action has no mapped compensation is skipped
as a no-op. -/
theorem C2_reverse_compensation (env : Env) (o : PreOrder) (s : SagaState)
    (cr : Nat → String) (hcomp : ∀ k, env.comp_results k = ActResult.ok (cr k)) :
    compCalls (compensate env o s).entries =
      s.compensation_log.reverse.filterMap
        (fun r => (compensation_map r.action).map (fun nm => (nm, [r.resource_id])))
    ∧ compensation_map ("payment_charged") = some ("refund_payment")
    ∧ compensation_map ("inventory_reserved") = some ("release_inventory")
    ∧ compensation_map ("fulfillment_created") = some ("cancel_fulfillment")
    ∧ (∀ (k : Nat) (r : CompensationRecord) (s' : SagaState),
        compensation_map r.action = none →
        compensate_action env k r s' = ([], Except.ok ()))
    ∧ (∀ (a b c : CompensationRecord) (na nb nc : String) (s' : SagaState),
        compensation_map a.action = some na →
        compensation_map b.action = some nb →
        compensation_map c.action = some nc →
        s'.compensation_log = [a, b, c] →
        compCalls (compensate env o s').entries =
          [(nc, [c.resource_id]), (nb, [b.resource_id]), (na, [a.resource_id])]) := by
  refine ⟨compensate_calls env o s cr hcomp, rfl, rfl, rfl, ?_, ?_⟩
  · intro k r s' h
    unfold compensate_action
    rw [h]
  · intro a b c na nb nc s' ha hb hc hlog
    rw [compensate_calls env o s' cr hcomp, hlog]
    simp [ha, hb, hc]

theorem C2_witness :
    compCalls (compensate envBase o77 sW).entries =
      [(("release_inventory" : String), (["r1"] : List String)),
       (("refund_payment" : String), (["c1"] : List String))]
    ∧ compensation_map ("payment_charged") = some ("refund_payment")
    ∧ compensation_map ("inventory_reserved") = some ("release_inventory")
    ∧ compensation_map ("fulfillment_created") = some ("cancel_fulfillment")
    ∧ (∀ (k : Nat) (r : CompensationRecord) (s' : SagaState),
        compensation_map r.action = none →
        compensate_action envBase k r s' = ([], Except.ok ()))
    ∧ (∀ (a b c : CompensationRecord) (na nb nc : String) (s' : SagaState),
        compensation_map a.action = some na →
        compensation_map b.action = some nb →
        compensation_map c.action = some nc →
        s'.compensation_log = [a, b, c] →
        compCalls (compensate envBase o77 s').entries =
          [(nc, [c.resource_id]), (nb, [b.resource_id]), (na, [a.resource_id])]) :=
  C2_reverse_compensation envBase o77 sW (fun _ => "CP") (fun _ => rfl)

/-- C3: at every point of every saga execution, the compensation log contains
exactly the forward actions (payment_charged, inventory_reserved,
fulfillment_created) whose activities have completed successfully, in the
order they completed: never an action whose activity failed or has not yet
returned, and never missing a completed one. The points are the suspension
snapshots of the trace and the final state. -/
theorem C3_comp_log_invariant (env : Env) (o : PreOrder) :
    (∀ (i : Nat) (e : Entry), (run env o).trace[i]? = some e → suspEv e.ev = true →
      get_compensation_log e.saga = forwardOk (events ((run env o).trace.take i)))
    ∧ get_compensation_log (run env o).final = forwardOk (events (run env o).trace) := by
  obtain ⟨hp, hf⟩ := (run_master env o).1
  have hbase : get_compensation_log { initSagaState with order := some o } = [] := rfl
  rw [hbase] at hp hf
  constructor
  · intro i e hi hs
    rw [hp i e hi hs, List.nil_append]
  · rw [hf, List.nil_append]

theorem C3_witness :
    ([(("payment_charged" : String), ("CH-1" : String))] : List (String × String)) =
      forwardOk (events ((run env77 o77).trace.take 3)) := by
  have h := (C3_comp_log_invariant env77 o77).1 3 _ rfl rfl
  exact h

/-- C4: in every execution that enters the compensation path, the phase is
set to REFUNDED strictly before any compensating activity is invoked: every
compensating invocation's snapshot state is already REFUNDED, and the
REFUNDED transition occurs at a strictly earlier trace position than every
compensating invocation. -/
theorem C4_refunded_before_compensation (env : Env) (o : PreOrder) :
    (∀ e ∈ (run env o).trace, isCompCallEv e.ev = true →
      e.saga.state = OrderState.refunded)
    ∧ (∀ (j : Nat) (ev : Event), (events (run env o).trace)[j]? = some ev →
        isCompCallEv ev = true →
        ∃ i : Nat, i < j ∧
          (events (run env o).trace)[i]? = some (Event.setState OrderState.refunded)) :=
  ⟨(run_master env o).2.1, (run_master env o).2.2.2.1⟩

theorem C4_witness :
    ∃ i : Nat, i < 9 ∧ (events (run envC o77).trace)[i]? =
      some (Event.setState OrderState.refunded) :=
  (C4_refunded_before_compensation envC o77).2 9
    (Event.actOk ("release_inventory") ["RES-1"] "CP") rfl rfl

/-- C5: once the phase has reached FULFILLMENT_IN_PROGRESS, a subsequent
cancelOrder signal never changes the phase, never triggers compensation and
never alters the compensation log: the cancel_order handler only sets its
flag, and no trace containing the FULFILLMENT_IN_PROGRESS transition contains
a compensating invocation or a REFUNDED transition. -/
theorem C5_fulfillment_irrevocable (env : Env) (o : PreOrder) :
    (∀ s : SagaState, (cancel_order s).state = s.state ∧
      (cancel_order s).compensation_log = s.compensation_log ∧
      (cancel_order s).cancel_requested = true)
    ∧ ((Event.setState OrderState.fulfillment_in_progress ∈ events (run env o).trace) →
        ∀ ev ∈ events (run env o).trace,
          isCompCallEv ev = false ∧ ev ≠ Event.setState OrderState.refunded) :=
  ⟨fun _ => ⟨rfl, rfl, rfl⟩, (run_master env o).2.2.1⟩

theorem C5_witness :
    isCompCallEv (Event.setState OrderState.delivered) = false ∧
      Event.setState OrderState.delivered ≠ Event.setState OrderState.refunded :=
  (C5_fulfillment_irrevocable envBase o77).2 (by decide)
    (Event.setState OrderState.delivered) (by decide)

/-- C6: the workflow class defines exactly two read-only query handlers,
get_status and get_compensation_log; the third query the spec promises and
the client invokes, get_deadline_info, has no handler in the workflow. -/
theorem C6_query_surface :
    workflow_query_handlers = ["get_status", "get_compensation_log"]
    ∧ ("get_deadline_info" : String) ∈ client_query_names
    ∧ ("get_deadline_info" : String) ∉ workflow_query_handlers
    ∧ workflow_query_handlers.length = 2 := by decide

/-- C7 counterexample: with the confirmation notification failing and every
other activity succeeding, the notification failure propagates out of the
payment phase: the run is reported as payment_failed with the notification
error as its reason, the already committed charge stays in the compensation
log, no compensating activity runs, and fulfillment is never reached. -/
theorem C7_counterexample :
    (run env77 o77).result = Except.ok
      { status := "payment_failed", order_id := "ORD-1",
        reason := some ("notification gateway down") }
    ∧ (run env77 o77).final.compensation_log =
      [{ action := "payment_charged", resource_id := "CH-1" }]
    ∧ compCalls (run env77 o77).trace = []
    ∧ Event.setState OrderState.fulfillment_in_progress ∉ events (run env77 o77).trace := by
  refine ⟨rfl, rfl, rfl, by decide⟩

/-- C7 (amended): a send_notification failure is never caught: the notify
wrapper returns the failure to its caller at every call site, and in the
payment phase the failure aborts the phase and is reported as payment_failed
even though the charge succeeded and stays in the compensation log. -/
theorem C7_notification_failure_propagates (env : Env) (o : PreOrder) (cid m : String)
    (hch : env.charge = ActResult.ok cid)
    (hnc : env.notify_confirm = ActResult.err m) :
    (run env o).result = Except.ok
      { status := "payment_failed", order_id := o.order_id, reason := some m }
    ∧ (run env o).final.compensation_log =
      [{ action := "payment_charged", resource_id := cid }]
    ∧ (∀ (s : SagaState) (subject message m' : String),
        (notify o s (ActResult.err m') subject message).2 = Except.error m') := by
  have hp1r : (process_payment env o { initSagaState with order := some o }).result =
      Except.error m := by
    simp [process_payment, invoke, notify, hch, hnc]
  refine ⟨?_, ?_, ?_⟩
  · simp only [run, hp1r]
  · simp only [run, hp1r]
    simp [process_payment, invoke, notify, hch, hnc, initSagaState]
  · intro s subject message m'
    simp [notify, invoke]

theorem C7_witness :
    (run env77 o77).result = Except.ok
      { status := "payment_failed", order_id := "ORD-1",
        reason := some ("notification gateway down") }
    ∧ (run env77 o77).final.compensation_log =
      [{ action := "payment_charged", resource_id := "CH-1" }]
    ∧ (∀ (s : SagaState) (subject message m' : String),
        (notify o77 s (ActResult.err m') subject message).2 = Except.error m') :=
  C7_notification_failure_propagates env77 o77 ("CH-1") _ rfl rfl

/-- C8: if the charge_payment activity fails on all 3 permitted attempts,
the saga terminates with outcome payment_failed carrying the order id and a
reason, the compensation log is empty, and no compensating activity is ever
invoked. -/
theorem C8_payment_failure_no_compensation (env : Env) (o : PreOrder) (m : String)
    (hch : env.charge = ActResult.err m) :
    (run env o).result = Except.ok
      { status := "payment_failed", order_id := o.order_id, reason := some m }
    ∧ (run env o).final.compensation_log = []
    ∧ compCalls (run env o).trace = []
    ∧ standard_retry_policy.maximum_attempts = 3 := by
  have hp1r : (process_payment env o { initSagaState with order := some o }).result =
      Except.error m := by
    simp [process_payment, invoke, hch]
  refine ⟨?_, ?_, ?_, rfl⟩
  · simp only [run, hp1r]
  · simp only [run, hp1r]
    simp [process_payment, invoke, hch, initSagaState]
  · simp only [run, hp1r]
    simp [process_payment, invoke, hch, compCalls_cons]

theorem C8_witness :
    (run envD o77).result = Except.ok
      { status := "payment_failed", order_id := "ORD-1",
        reason := some ("Payment declined - insufficient funds") }
    ∧ (run envD o77).final.compensation_log = []
    ∧ compCalls (run envD o77).trace = []
    ∧ standard_retry_policy.maximum_attempts = 3 :=
  C8_payment_failure_no_compensation envD o77 _ rfl

def envNC : Env :=
  { envBase with notify_completed := ActResult.err ("notification service unavailable") }

/-- C9 counterexample: the program has exactly three terminal statuses, not
four: payment_failed, refunded and completed are all reachable, the list of
statuses the run can return has length 3, and a terminating execution need
not return any of them: with every business step succeeding but the terminal
completion notification failing, the run terminates as an uncaught workflow
failure without returning an outcome to the initiator. -/
theorem C9_counterexample :
    run_statuses.length = 3 ∧ ¬ run_statuses.length = 4
    ∧ (run envD o77).result = Except.ok
      { status := "payment_failed", order_id := "ORD-1",
        reason := some ("Payment declined - insufficient funds") }
    ∧ (run envC o77).result = Except.ok
      { status := "refunded", order_id := "ORD-1",
        reason := some ("Order cancelled by customer") }
    ∧ (run envBase o77).result = Except.ok
      { status := "completed", order_id := "ORD-1", reason := none }
    ∧ (run envNC o77).result = Except.error ("notification service unavailable") :=
  ⟨rfl, by decide, rfl, rfl, rfl, rfl⟩

/-- C9 (amended): every terminating saga execution that returns a result to
the initiator returns exactly one of the three stated terminal outcomes
(payment_failed, refunded, completed), each carrying the order id, and the
failure outcomes additionally carrying a reason string while completed
carries none; executions in which an uncaught step fails (the counterexample
exhibits a failing completion notification) terminate as workflow failures
without returning any of these outcomes. -/
theorem C9_terminal_outcomes (env : Env) (o : PreOrder) (r : RunResult)
    (h : (run env o).result = Except.ok r) :
    r.status ∈ run_statuses ∧ r.order_id = o.order_id ∧
    (r.status = "completed" → r.reason = none) ∧
    (r.status ≠ "completed" → ∃ m : String, r.reason = some m) := by
  cases h1 : (process_payment env o { initSagaState with order := some o }).result with
  | error m1 =>
    simp only [run, h1] at h
    injection h with h2
    subst h2
    exact ⟨show ("payment_failed" : String) ∈ run_statuses by decide, rfl,
      fun hcon => absurd (show ("payment_failed" : String) = "completed" from hcon)
        (by decide),
      fun _ => ⟨m1, rfl⟩⟩
  | ok u1 =>
    cases h2 : (reserve_inventory env o
        (process_payment env o { initSagaState with order := some o }).saga).result with
    | error m2 =>
      cases hc : (compensate env o (reserve_inventory env o
          (process_payment env o { initSagaState with order := some o }).saga).saga).result with
      | error mc =>
        simp only [run, h1, h2, hc] at h
        exact Except.noConfusion h
      | ok uc =>
        simp only [run, h1, h2, hc] at h
        injection h with h3
        subst h3
        exact ⟨show ("refunded" : String) ∈ run_statuses by decide, rfl,
          fun hcon => absurd (show ("refunded" : String) = "completed" from hcon)
            (by decide),
          fun _ => ⟨m2, rfl⟩⟩
    | ok u2 =>
      cases h3 : (await_release_with_timeout env o (reserve_inventory env o
          (process_payment env o
            { initSagaState with order := some o }).saga).saga).result with
      | error m3 =>
        cases hc : (compensate env o (await_release_with_timeout env o
            (reserve_inventory env o (process_payment env o
              { initSagaState with order := some o }).saga).saga).saga).result with
        | error mc =>
          simp only [run, h1, h2, h3, hc] at h
          exact Except.noConfusion h
        | ok uc =>
          simp only [run, h1, h2, h3, hc] at h
          injection h with h4
          subst h4
          exact ⟨show ("refunded" : String) ∈ run_statuses by decide, rfl,
            fun hcon => absurd (show ("refunded" : String) = "completed" from hcon)
              (by decide),
            fun _ => ⟨m3, rfl⟩⟩
      | ok u3 =>
        cases h4 : (process_fulfillment env o (await_release_with_timeout env o
            (reserve_inventory env o (process_payment env o
              { initSagaState with order := some o }).saga).saga).saga).result with
        | error m4 =>
          simp only [run, h1, h2, h3, h4] at h
          exact Except.noConfusion h
        | ok u4 =>
          cases h5 : (await_delivery_confirmation env o (process_fulfillment env o
              (await_release_with_timeout env o (reserve_inventory env o
                (process_payment env o
                  { initSagaState with order := some o }).saga).saga).saga).saga).result with
          | error m5 =>
            simp only [run, h1, h2, h3, h4, h5] at h
            exact Except.noConfusion h
          | ok u5 =>
            cases hnot : notify o
                { (await_delivery_confirmation env o (process_fulfillment env o
                    (await_release_with_timeout env o (reserve_inventory env o
                      (process_payment env o
                        { initSagaState with order := some o }).saga).saga).saga).saga).saga
                  with state := OrderState.delivered }
                env.notify_completed ("Order Completed!")
                ("Your " ++ o.product_name ++ " has been delivered!") with
            | mk e7 r7 =>
              cases r7 with
              | error m7 =>
                simp only [run, h1, h2, h3, h4, h5, hnot] at h
                exact Except.noConfusion h
              | ok u7 =>
                simp only [run, h1, h2, h3, h4, h5, hnot] at h
                injection h with h6
                subst h6
                exact ⟨show ("completed" : String) ∈ run_statuses by decide, rfl,
                  fun _ => rfl, fun hcon => absurd rfl hcon⟩

theorem C9_witness :
    ("payment_failed" : String) ∈ run_statuses ∧ ("ORD-1" : String) = o77.order_id ∧
    (("payment_failed" : String) = "completed" →
      (some ("Payment declined - insufficient funds") : Option String) = none) ∧
    (("payment_failed" : String) ≠ "completed" →
      ∃ m : String,
        (some ("Payment declined - insufficient funds") : Option String) = some m) :=
  C9_terminal_outcomes envD o77
    { status := "payment_failed", order_id := "ORD-1",
      reason := some ("Payment declined - insufficient funds") } rfl

/-- C10: before the run has bound an order to the instance, the get_status
query returns a null order id together with the initial phase
pre_order_placed rather than failing; for every state with a bound order it
returns the bound order's id and the current phase, and the run keeps the
order bound to the final state. -/
theorem C10_get_status (env : Env) (o : PreOrder) :
    get_status initSagaState = { order_id := none, state := "pre_order_placed" }
    ∧ (∀ (s : SagaState) (o' : PreOrder), s.order = some o' →
        get_status s = { order_id := some o'.order_id, state := s.state.value })
    ∧ (run env o).final.order = some o := by
  refine ⟨rfl, ?_, (run_master env o).2.2.2.2⟩
  intro s o' h
  simp [get_status, h]

theorem C10_witness :
    get_status { initSagaState with order := some o77 } =
      { order_id := some ("ORD-1"), state := "pre_order_placed" } :=
  (C10_get_status envBase o77).2.1 { initSagaState with order := some o77 } o77 rfl

/-- C1: for every execution in the AWAITING_RELEASE phase, the saga
transitions to FULFILLMENT_IN_PROGRESS if and only if it observes
startFulfillmentRequested true and cancelRequested false before the deadline
(release timestamp plus one week); if the deadline elapses first the saga
refunds with the deadline reason rather than the cancellation reason, and if
cancelRequested is observed first (even together with
startFulfillmentRequested) the saga refunds with the cancellation reason. -/
theorem C1_release_deadline_gate (env : Env) (o : PreOrder) (cid v1 rid v2 : String)
    (cr : Nat → String)
    (hch : env.charge = ActResult.ok cid)
    (hnc : env.notify_confirm = ActResult.ok v1)
    (hrs : env.reserve = ActResult.ok rid)
    (hobs : ∀ (c st : Bool), env.release_obs = ReleaseObs.satisfied c st → (c || st) = true)
    (hcomp : ∀ k, env.comp_results k = ActResult.ok (cr k))
    (hrn : env.notify_refund = ActResult.ok v2) :
    ((Event.setState OrderState.fulfillment_in_progress ∈ events (run env o).trace) ↔
      (0 < o.release_date + one_week_seconds - env.now3 ∧
        env.release_obs = ReleaseObs.satisfied false true))
    ∧ (o.release_date + one_week_seconds - env.now3 ≤ 0 →
        (run env o).result = Except.ok
          { status := "refunded", order_id := o.order_id,
            reason := some ("Release date + 1 week has passed - auto-refund triggered") })
    ∧ (0 < o.release_date + one_week_seconds - env.now3 →
        env.release_obs = ReleaseObs.timedOut →
        (run env o).result = Except.ok
          { status := "refunded", order_id := o.order_id,
            reason := some
              ("Fulfillment not initiated within deadline - auto-refund triggered") })
    ∧ (∀ st : Bool, 0 < o.release_date + one_week_seconds - env.now3 →
        env.release_obs = ReleaseObs.satisfied true st →
        (run env o).result = Except.ok
          { status := "refunded", order_id := o.order_id,
            reason := some ("Order cancelled by customer") }) := by
  have hp1r : (process_payment env o { initSagaState with order := some o }).result =
      Except.ok () := by
    simp [process_payment, invoke, notify, hch, hnc]
  have hp2r : (reserve_inventory env o
      (process_payment env o { initSagaState with order := some o }).saga).result =
      Except.ok () := by
    simp [reserve_inventory, invoke, hrs]
  have hflag : (reserve_inventory env o
      (process_payment env o
        { initSagaState with order := some o }).saga).saga.cancel_requested = false := by
    simp [process_payment, reserve_inventory, invoke, notify, hch, hnc, hrs, initSagaState]
  have hP1 := process_payment_props env o { initSagaState with order := some o }
  have hP2 := reserve_inventory_props env o
    (process_payment env o { initSagaState with order := some o }).saga
  by_cases hd : o.release_date + one_week_seconds - env.now3 ≤ 0
  · have hp3r : (await_release_with_timeout env o (reserve_inventory env o
        (process_payment env o { initSagaState with order := some o }).saga).saga).result =
        Except.error ("Release date + 1 week has passed - auto-refund triggered") := by
      simp [await_release_with_timeout, hd]
    have hP3 := await_release_props env o (reserve_inventory env o
      (process_payment env o { initSagaState with order := some o }).saga).saga
    have hC := compensate_props env o (await_release_with_timeout env o
      (reserve_inventory env o
        (process_payment env o { initSagaState with order := some o }).saga).saga).saga
    have hcres := compensate_result_ok env o (await_release_with_timeout env o
      (reserve_inventory env o
        (process_payment env o
          { initSagaState with order := some o }).saga).saga).saga cr hcomp v2 hrn
    refine ⟨?_, ?_, ?_, ?_⟩
    · constructor
      · intro hmem
        exfalso
        simp only [run, hp1r, hp2r, hp3r, events_append] at hmem
        rcases List.mem_append.mp hmem with hm | hm
        · exact absurd hm (not_mem_events (fun e he => (hP1.1 e he).2.2.1))
        rcases List.mem_append.mp hm with hm | hm
        · exact absurd hm (not_mem_events (fun e he => (hP2.1 e he).2.2.1))
        rcases List.mem_append.mp hm with hm | hm
        · exact absurd hm (not_mem_events (fun e he => (hP3.1 e he).2.2.1))
        · exact absurd hm (not_mem_events (fun e he => (hC.1 e he).2.1))
      · rintro ⟨hpos, _⟩
        omega
    · intro _
      simp only [run, hp1r, hp2r, hp3r, hcres]
    · intro hpos _
      omega
    · intro st hpos _
      omega
  · cases hobs0 : env.release_obs with
    | timedOut =>
      have hp3r : (await_release_with_timeout env o (reserve_inventory env o
          (process_payment env o
            { initSagaState with order := some o }).saga).saga).result =
          Except.error
            ("Fulfillment not initiated within deadline - auto-refund triggered") := by
        simp [await_release_with_timeout, hd, hobs0, hflag]
      have hP3 := await_release_props env o (reserve_inventory env o
        (process_payment env o { initSagaState with order := some o }).saga).saga
      have hC := compensate_props env o (await_release_with_timeout env o
        (reserve_inventory env o
          (process_payment env o { initSagaState with order := some o }).saga).saga).saga
      have hcres := compensate_result_ok env o (await_release_with_timeout env o
        (reserve_inventory env o
          (process_payment env o
            { initSagaState with order := some o }).saga).saga).saga cr hcomp v2 hrn
      refine ⟨?_, ?_, ?_, ?_⟩
      · constructor
        · intro hmem
          exfalso
          simp only [run, hp1r, hp2r, hp3r, events_append] at hmem
          rcases List.mem_append.mp hmem with hm | hm
          · exact absurd hm (not_mem_events (fun e he => (hP1.1 e he).2.2.1))
          rcases List.mem_append.mp hm with hm | hm
          · exact absurd hm (not_mem_events (fun e he => (hP2.1 e he).2.2.1))
          rcases List.mem_append.mp hm with hm | hm
          · exact absurd hm (not_mem_events (fun e he => (hP3.1 e he).2.2.1))
          · exact absurd hm (not_mem_events (fun e he => (hC.1 e he).2.1))
        · rintro ⟨_, heq⟩
          exact ReleaseObs.noConfusion heq
      · intro hdd
        exact absurd hdd hd
      · intro _ _
        simp only [run, hp1r, hp2r, hp3r, hcres]
      · intro st hpos heq
        exact ReleaseObs.noConfusion heq
    | satisfied c st0 =>
      cases c with
      | true =>
        have hp3r : (await_release_with_timeout env o (reserve_inventory env o
            (process_payment env o
              { initSagaState with order := some o }).saga).saga).result =
            Except.error ("Order cancelled by customer") := by
          simp [await_release_with_timeout, hd, hobs0, hflag]
        have hP3 := await_release_props env o (reserve_inventory env o
          (process_payment env o { initSagaState with order := some o }).saga).saga
        have hC := compensate_props env o (await_release_with_timeout env o
          (reserve_inventory env o
            (process_payment env o { initSagaState with order := some o }).saga).saga).saga
        have hcres := compensate_result_ok env o (await_release_with_timeout env o
          (reserve_inventory env o
            (process_payment env o
              { initSagaState with order := some o }).saga).saga).saga cr hcomp v2 hrn
        refine ⟨?_, ?_, ?_, ?_⟩
        · constructor
          · intro hmem
            exfalso
            simp only [run, hp1r, hp2r, hp3r, events_append] at hmem
            rcases List.mem_append.mp hmem with hm | hm
            · exact absurd hm (not_mem_events (fun e he => (hP1.1 e he).2.2.1))
            rcases List.mem_append.mp hm with hm | hm
            · exact absurd hm (not_mem_events (fun e he => (hP2.1 e he).2.2.1))
            rcases List.mem_append.mp hm with hm | hm
            · exact absurd hm (not_mem_events (fun e he => (hP3.1 e he).2.2.1))
            · exact absurd hm (not_mem_events (fun e he => (hC.1 e he).2.1))
          · rintro ⟨_, heq⟩
            simp at heq
        · intro hdd
          exact absurd hdd hd
        · intro _ heq
          exact ReleaseObs.noConfusion heq
        · intro st hpos heq
          simp only [run, hp1r, hp2r, hp3r, hcres]
      | false =>
        cases st0 with
        | false => exact absurd (hobs false false hobs0) (by decide)
        | true =>
          have hp3r : (await_release_with_timeout env o (reserve_inventory env o
              (process_payment env o
                { initSagaState with order := some o }).saga).saga).result =
              Except.ok () := by
            simp [await_release_with_timeout, hd, hobs0, hflag]
          refine ⟨?_, ?_, ?_, ?_⟩
          · constructor
            · intro _
              exact ⟨by omega, rfl⟩
            · intro _
              cases h4 : (process_fulfillment env o (await_release_with_timeout env o
                  (reserve_inventory env o (process_payment env o
                    { initSagaState with order := some o }).saga).saga).saga).result with
              | error m4 =>
                simp only [run, hp1r, hp2r, hp3r, h4, events_append]
                refine List.mem_append.mpr (Or.inr ?_)
                refine List.mem_append.mpr (Or.inr ?_)
                refine List.mem_append.mpr (Or.inr ?_)
                exact process_fulfillment_head env o _
              | ok u4 =>
                cases h5 : (await_delivery_confirmation env o (process_fulfillment env o
                    (await_release_with_timeout env o (reserve_inventory env o
                      (process_payment env o
                        { initSagaState with order := some o
                          }).saga).saga).saga).saga).result with
                | error m5 =>
                  simp only [run, hp1r, hp2r, hp3r, h4, h5, events_append]
                  refine List.mem_append.mpr (Or.inr ?_)
                  refine List.mem_append.mpr (Or.inr ?_)
                  refine List.mem_append.mpr (Or.inr ?_)
                  refine List.mem_append.mpr (Or.inl ?_)
                  exact process_fulfillment_head env o _
                | ok u5 =>
                  cases hnot : notify o
                      { (await_delivery_confirmation env o (process_fulfillment env o
                          (await_release_with_timeout env o (reserve_inventory env o
                            (process_payment env o
                              { initSagaState with order := some o
                                }).saga).saga).saga).saga).saga
                        with state := OrderState.delivered }
                      env.notify_completed ("Order Completed!")
                      ("Your " ++ o.product_name ++ " has been delivered!") with
                  | mk e7 r7 =>
                    cases r7 with
                    | ok u7 =>
                      simp only [run, hp1r, hp2r, hp3r, h4, h5, hnot, events_append]
                      refine List.mem_append.mpr (Or.inr ?_)
                      refine List.mem_append.mpr (Or.inr ?_)
                      refine List.mem_append.mpr (Or.inr ?_)
                      refine List.mem_append.mpr (Or.inl ?_)
                      exact process_fulfillment_head env o _
                    | error m7 =>
                      simp only [run, hp1r, hp2r, hp3r, h4, h5, hnot, events_append]
                      refine List.mem_append.mpr (Or.inr ?_)
                      refine List.mem_append.mpr (Or.inr ?_)
                      refine List.mem_append.mpr (Or.inr ?_)
                      refine List.mem_append.mpr (Or.inl ?_)
                      exact process_fulfillment_head env o _
          · intro hdd
            exact absurd hdd hd
          · intro _ heq
            exact ReleaseObs.noConfusion heq
          · intro st hpos heq
            simp at heq

theorem C1_witness :
    (run envT o77).result = Except.ok
      { status := "refunded", order_id := "ORD-1",
        reason := some
          ("Fulfillment not initiated within deadline - auto-refund triggered") } :=
  (C1_release_deadline_gate envT o77 ("CH-1") "N1" "RES-1" "N6" (fun _ => "CP")
    rfl rfl rfl (fun c st h => ReleaseObs.noConfusion h) (fun _ => rfl) rfl).2.2.1
    (by decide) rfl

end PreorderSaga
